import Mathlib

/-!
# NetEnforcer — shallow embedding and verification

This file embeds the core of `src/NetEnforcer/NetEnforcer.cpp` in Lean 4:
the handle allocator, the client table, the reconciliation engine
(`updateClient`), the occupancy accountant (`updateSentBytes`,
`getOccupancy`) and the RPC dispatch loops.

Modelling conventions:
* C++ `unsigned int` arithmetic in the handle allocator is modelled on `Nat`
  with an explicit `% 2^32` (matching 32-bit wraparound); `uint64_t` counters
  use `% 2^64`.
* C++ `double` values (rates, bursts, byte allowances, occupancy) are
  modelled as exact rationals `ℚ`.  The `double → unsigned int` narrowing
  cast truncates nonnegative values toward zero, which for nonnegative
  rationals is `Rat.floor`; negative or too-large doubles are undefined
  behaviour in C++, and the model totalizes them with `Int.toNat` and
  `% 2^32`.
* Kernel interaction is abstracted: issued `tc` commands become an explicit
  trace of `TCCmd` values, the counter read `getSentBytes` becomes an oracle
  `read : Nat → Nat → Nat` (parent handle, minor ↦ counter value), and
  `GetTime()` becomes an explicit `now : Nat` argument.
* The id counter `g_nextId` is an `unsigned int` in the source: `g_nextId++`
  yields the current value and wraps at `2^32`.  The state field `nextId` is
  a `Nat`, the assigned id is the current value, and the increment is taken
  `% 2^32`, so after `2^32` insertions the counter wraps to 0 and ids are
  reassigned, exactly as in the source.
-/

/-- Process-wide configuration: `g_numPriorities`, `g_numLevels`, `g_maxRate`
from the globals of `NetEnforcer.cpp`. -/
structure Config where
  numPriorities : Nat
  numLevels : Nat
  maxRate : Nat
deriving DecidableEq

/-- The per-client record `struct Client` of `NetEnforcer.cpp`. -/
structure Client where
  id : Nat
  priority : Nat
  rateLimitLength : Nat
  rate : ℚ
  lastSentBytesTime : Nat
  maxSentBytes : ℚ
  prevSentBytes : Nat
  sentBytes : Nat
deriving DecidableEq

/-- A value-initialized `Client`, as produced by `std::map::operator[]` on a
missing key (all fields zero). -/
def defaultClient : Client :=
  { id := 0, priority := 0, rateLimitLength := 0, rate := 0,
    lastSentBytesTime := 0, maxSentBytes := 0, prevSentBytes := 0, sentBytes := 0 }

/-- One issued `tc` command.  Constructors correspond to the command-emitting
helpers of `NetEnforcer.cpp`: `removeQdisc`, `removeClass`, `removeFilter`
(whose `prio` argument is `id + 1`), `addHTBQdisc`, `addHTBClass` and
`addFilter`. -/
inductive TCCmd where
  | removeQdiscCmd (parentHandle parentMinor childHandle : Nat)
  | removeClassCmd (parentHandle minor : Nat)
  | removeFilterCmd (parentHandle id : Nat)
  | addHTBQdiscCmd (parentHandle parentMinor childHandle : Nat)
  | addHTBClassCmd (parentHandle minor rate ceil burst cburst : Nat)
  | addFilterCmd (parentHandle id dst src minor : Nat)
deriving DecidableEq

/-- `rootHTBHandle()`: handle of the root HTB qdisc. -/
def rootHTBHandle : Nat := 1

/-- `rootHTBMinor(priority) = priority + 1` (32-bit unsigned). -/
def rootHTBMinor (priority : Nat) : Nat :=
  (priority + 1) % 2 ^ 32

/-- `rootHTBMinorHelper(priority) = priority + rootHTBMinor(g_numPriorities)`. -/
def rootHTBMinorHelper (g : Config) (priority : Nat) : Nat :=
  (priority + rootHTBMinor g.numPriorities) % 2 ^ 32

/-- `rootHTBMinorDefault() = rootHTBMinorHelper(g_numPriorities)`. -/
def rootHTBMinorDefault (g : Config) : Nat :=
  rootHTBMinorHelper g g.numPriorities

/-- `DSMARKHandle(priority) = priority + rootHTBMinorDefault() + 1`. -/
def DSMARKHandle (g : Config) (priority : Nat) : Nat :=
  (priority + rootHTBMinorDefault g + 1) % 2 ^ 32

/-- `HTBBaseHandle(priority) = priority + DSMARKHandle(g_numPriorities)`. -/
def HTBBaseHandle (g : Config) (priority : Nat) : Nat :=
  (priority + DSMARKHandle g g.numPriorities) % 2 ^ 32

/-- `HTBHandle(id, priority, level) =
(id*g_numPriorities*g_numLevels) + (priority*g_numLevels) + level
+ HTBBaseHandle(g_numPriorities)` in 32-bit unsigned arithmetic. -/
def HTBHandle (g : Config) (id priority level : Nat) : Nat :=
  (id * g.numPriorities * g.numLevels + priority * g.numLevels + level
    + HTBBaseHandle g g.numPriorities) % 2 ^ 32

/-- `HTBMinor(id, level)`: `(id + 2)` at level 0 (32-bit unsigned), else the
reserved default minor `1`. -/
def HTBMinor (id level : Nat) : Nat :=
  if level = 0 then (id + 2) % 2 ^ 32 else 1

/-- The `double → unsigned int` narrowing cast applied to the rate/burst
entries in `updateClient` (truncation toward zero for nonnegative values;
negative or out-of-range doubles are UB in C++ and totalized here). -/
def douToU32 (q : ℚ) : Nat :=
  q.floor.toNat % 2 ^ 32

/-- 64-bit unsigned subtraction `a - b` (used for counter deltas and elapsed
time in `updateSentBytes`). -/
def sub64 (a b : Nat) : Nat :=
  (a % 2 ^ 64 + 2 ^ 64 - b % 2 ^ 64) % 2 ^ 64

/-- Modelled from the spec: `ConvertTimeToSeconds` lives in
`common/time.hpp`, which is not under `src/`.  The spec states timestamps
are monotonic nanoseconds and that `maxSentBytes` accumulates
`rate × (now - lastSentBytesTime) in seconds`. -/
def ConvertTimeToSeconds (t : Nat) : ℚ :=
  (t : ℚ) / 1000000000

/-- Association-list lookup for the client table `g_clients`
(`map<pair<unsigned long, unsigned long>, Client>`). -/
def findClient : List ((Nat × Nat) × Client) → (Nat × Nat) → Option Client
  | [], _ => none
  | (a, c) :: rest, addr => if a = addr then some c else findClient rest addr

/-- Store a client under a key: replace the existing binding or append. -/
def setClient : List ((Nat × Nat) × Client) → (Nat × Nat) → Client →
    List ((Nat × Nat) × Client)
  | [], addr, c => [(addr, c)]
  | (a, c0) :: rest, addr, c =>
      if a = addr then (addr, c) :: rest else (a, c0) :: setClient rest addr c

/-- `g_clients.erase(addr)`. -/
def eraseClient (l : List ((Nat × Nat) × Client)) (addr : Nat × Nat) :
    List ((Nat × Nat) × Client) :=
  l.filter (fun e => decide (e.1 ≠ addr))

/-- The mutable global state of the enforcer: `g_clients` and `g_nextId`. -/
structure EnfState where
  clients : List ((Nat × Nat) × Client)
  nextId : Nat
deriving DecidableEq

/-- `updateSentBytes(Client&)`: settle byte accounting for a client under its
current priority/leaf.  `read` is the `getSentBytes` oracle and `now` the
`GetTime()` result. -/
def updateSentBytes (g : Config) (read : Nat → Nat → Nat) (now : Nat)
    (c : Client) : Client :=
  if 0 < c.rateLimitLength then
    let curr := read (HTBBaseHandle g c.priority) (HTBMinor c.id 0) % 2 ^ 64
    { c with
      sentBytes := (c.sentBytes + sub64 curr c.prevSentBytes) % 2 ^ 64,
      prevSentBytes := curr,
      maxSentBytes :=
        c.maxSentBytes + c.rate * ConvertTimeToSeconds (sub64 now c.lastSentBytesTime),
      lastSentBytesTime := now % 2 ^ 64 }
  else c

/-- The `while ((level * 2) < rateLimitLength)` loop of `updateClient`,
written with an explicit fuel (the caller passes `fuel = rateLimitLength`,
which dominates the iteration count).  Arguments `ph`, `mn`, `ch` are the
loop-carried `parentHandle`, `minor`, `childHandle`; the result is the
command trace together with the final `level`, `parentHandle`, `minor`,
`childHandle`. -/
def chainLoop (g : Config) (uid priority oldPriority oldLen len : Nat)
    (rates bursts : List ℚ) :
    Nat → Nat → Nat → Nat → Nat → List TCCmd × Nat × Nat × Nat × Nat
  | 0, level, ph, mn, ch => ([], level, ph, mn, ch)
  | fuel + 1, level, ph, mn, ch =>
    if 2 * level < len then
      let qcmds :=
        if 0 < level ∧ (oldLen ≤ 2 * level ∨ oldPriority ≠ priority)
        then [TCCmd.addHTBQdiscCmd ph mn ch] else []
      let ph1 := if 0 < level then ch else ph
      let mn1 := if 0 < level then HTBMinor uid level else mn
      let ch1 := if 0 < level then HTBHandle g uid priority level else ch
      let rate := douToU32 (rates.getD (2 * level) 0)
      let burst := douToU32 (bursts.getD (2 * level) 0)
      let ceil := if 2 * level + 1 < len then douToU32 (rates.getD (2 * level + 1) 0) else rate
      let cburst := if 2 * level + 1 < len then douToU32 (bursts.getD (2 * level + 1) 0) else burst
      let rest := chainLoop g uid priority oldPriority oldLen len rates bursts
        fuel (level + 1) ph1 mn1 ch1
      (qcmds ++ TCCmd.addHTBClassCmd ph1 mn1 rate ceil burst cburst :: rest.1, rest.2)
    else ([], level, ph, mn, ch)

/-- `updateClient(s_dstAddr, s_srcAddr, priority, rateLimitLength,
rateLimitRates, rateLimitBursts)`: the reconciliation engine.  Returns the
new state and the trace of issued `tc` commands, in issue order. -/
def updateClient (g : Config) (read : Nat → Nat → Nat) (now : Nat)
    (s : EnfState) (dst src priority rateLimitLength : Nat)
    (rates bursts : List ℚ) : EnfState × List TCCmd :=
  let addr := (dst, src)
  let found := findClient s.clients addr
  if found = none ∧ priority = g.numPriorities then (s, [])
  else
    let c1 :=
      match found with
      | none => { defaultClient with id := s.nextId, lastSentBytesTime := now % 2 ^ 64 }
      | some c0 => updateSentBytes g read now c0
    let oldPriority := match found with | none => g.numPriorities | some c0 => c0.priority
    let oldLen := match found with | none => 0 | some c0 => c0.rateLimitLength
    let nextId1 := match found with | none => (s.nextId + 1) % 2 ^ 32 | some _ => s.nextId
    let c2 := { c1 with
      priority := priority,
      rateLimitLength := rateLimitLength,
      rate := if 0 < rateLimitLength then rates.getD 0 0 else (g.maxRate : ℚ) }
    let walk := chainLoop g c2.id priority oldPriority oldLen rateLimitLength rates bursts
      rateLimitLength 0 (HTBBaseHandle g priority) (HTBMinor c2.id 0)
      (HTBHandle g c2.id priority 0)
    let filterCmds :=
      if 0 < rateLimitLength ∧ (oldLen = 0 ∨ oldPriority ≠ priority)
      then [TCCmd.addFilterCmd (HTBBaseHandle g priority) c2.id dst src (HTBMinor c2.id 0)]
      else []
    let c3 := if oldPriority ≠ priority then { c2 with prevSentBytes := 0 } else c2
    let rootCmds :=
      if oldPriority ≠ priority then
        (if oldPriority < g.numPriorities then [TCCmd.removeFilterCmd rootHTBHandle c2.id] else [])
          ++ (if priority < g.numPriorities
              then [TCCmd.addFilterCmd rootHTBHandle c2.id dst src (rootHTBMinor priority)]
              else [])
      else []
    let pruneCmds :=
      if 2 < oldLen then
        if oldPriority ≠ priority then
          [TCCmd.removeQdiscCmd (HTBBaseHandle g oldPriority) (HTBMinor c2.id 0)
            (HTBHandle g c2.id oldPriority 0)]
        else if 2 * walk.2.1 < oldLen then
          [TCCmd.removeQdiscCmd walk.2.2.1 walk.2.2.2.1 walk.2.2.2.2]
        else []
      else []
    let dropCmds :=
      if 0 < oldLen ∧ (rateLimitLength = 0 ∨ oldPriority ≠ priority)
      then [TCCmd.removeFilterCmd (HTBBaseHandle g oldPriority) c2.id,
            TCCmd.removeClassCmd (HTBBaseHandle g oldPriority) (HTBMinor c2.id 0)]
      else []
    let clients1 := setClient s.clients addr c3
    let clients2 := if priority = g.numPriorities then eraseClient clients1 addr else clients1
    (⟨clients2, nextId1⟩, walk.1 ++ filterCmds ++ rootCmds ++ pruneCmds ++ dropCmds)

/-- `getOccupancy(s_dstAddr, s_srcAddr)`.  The result is `some q` for a real
return value `q` and `none` for the IEEE `NaN` produced by the division
`0.0 / 0.0` (which the `occupancy > 1` cap does not catch).  A division
`x / 0.0` with `x > 0` gives `+inf`, which the cap turns into `1`.
Note `Client& c = g_clients[addr]` default-inserts a missing key. -/
def getOccupancy (g : Config) (read : Nat → Nat → Nat) (now : Nat)
    (s : EnfState) (dst src : Nat) : EnfState × Option ℚ :=
  let addr := (dst, src)
  let c := (findClient s.clients addr).getD defaultClient
  if c.priority ≠ 0 then
    let c1 := updateSentBytes g read now c
    let occ : Option ℚ :=
      if c1.maxSentBytes = 0 then
        if c1.sentBytes = 0 then none else some 1
      else
        let r := (c1.sentBytes : ℚ) / c1.maxSentBytes
        some (if 1 < r then 1 else r)
    (⟨setClient s.clients addr { c1 with sentBytes := 0, maxSentBytes := 0 }, s.nextId⟩, occ)
  else
    (⟨setClient s.clients addr c, s.nextId⟩, some 0)

/-- One RPC-surface operation: a single (decoded) `UpdateClients` item, a
single `RemoveClients` item, or a `GetOccupancy` request.  Each carries the
`getSentBytes` oracle and the `GetTime()` value observed while it runs. -/
inductive Op where
  | update (dst src priority : Nat) (rates bursts : List ℚ)
      (read : Nat → Nat → Nat) (now : Nat)
  | remove (dst src : Nat) (read : Nat → Nat → Nat) (now : Nat)
  | occupancy (dst src : Nat) (read : Nat → Nat → Nat) (now : Nat)

/-- State transition of one operation, following the three `_svc` handlers:
`net_enforcer_update_clients_svc` validates `priority < g_numPriorities` and
`rateLimitLength ≤ (g_numLevels + 1) * 2` (skipping invalid items);
`net_enforcer_remove_clients_svc` calls `updateClient` with
`priority = g_numPriorities` and an empty chain;
`net_enforcer_get_occupancy_svc` calls `getOccupancy`. -/
def step (g : Config) (s : EnfState) : Op → EnfState
  | Op.update dst src priority rates bursts read now =>
      if g.numPriorities ≤ priority then s
      else if (g.numLevels + 1) * 2 < rates.length then s
      else (updateClient g read now s dst src priority rates.length rates bursts).1
  | Op.remove dst src read now =>
      (updateClient g read now s dst src g.numPriorities 0 [] []).1
  | Op.occupancy dst src read now =>
      (getOccupancy g read now s dst src).1

/-- Run a sequence of RPC operations. -/
def run (g : Config) : EnfState → List Op → EnfState
  | s, [] => s
  | s, op :: ops => run g (step g s op) ops

/-- The default configuration (`g_numPriorities = 7`, `g_numLevels = 5`,
`g_maxRate = 125000000`). -/
def cfg7 : Config := { numPriorities := 7, numLevels := 5, maxRate := 125000000 }

/-- The client id `updateClient` works with: the stored id for an existing
key, else the next fresh id. -/
def effectiveId (s : EnfState) (addr : Nat × Nat) : Nat :=
  match findClient s.clients addr with
  | some c => c.id
  | none => s.nextId

/-! ## Proof-side descriptions of the chain walk -/

/-- Parent qdisc handle of the level-`lv` HTB class: the per-priority base
HTB at level 0, the previous level's per-client qdisc otherwise. -/
def classParent (g : Config) (uid priority lv : Nat) : Nat :=
  if lv = 0 then HTBBaseHandle g priority else HTBHandle g uid priority (lv - 1)

/-- The level-`lv` rate (or burst) taken from a chain list. -/
def rateAt (xs : List ℚ) (lv : Nat) : Nat :=
  douToU32 (xs.getD (2 * lv) 0)

/-- The level-`lv` ceil (or cburst): the odd-indexed entry when the chain
reaches it, else the even-indexed one. -/
def ceilAt (xs : List ℚ) (len lv : Nat) : Nat :=
  if 2 * lv + 1 < len then douToU32 (xs.getD (2 * lv + 1) 0) else douToU32 (xs.getD (2 * lv) 0)

/-- Commands issued by iteration `lv` of the chain walk: an optional
qdisc installation followed by the class replacement. -/
def levelCmds (g : Config) (uid priority oldPriority oldLen len : Nat)
    (rates bursts : List ℚ) (lv : Nat) : List TCCmd :=
  (if 0 < lv ∧ (oldLen ≤ 2 * lv ∨ oldPriority ≠ priority)
   then [TCCmd.addHTBQdiscCmd (classParent g uid priority (lv - 1)) (HTBMinor uid (lv - 1))
           (HTBHandle g uid priority (lv - 1))]
   else [])
  ++ [TCCmd.addHTBClassCmd (classParent g uid priority lv) (HTBMinor uid lv)
        (rateAt rates lv) (ceilAt rates len lv) (rateAt bursts lv) (ceilAt bursts len lv)]

/-- Concatenation of per-level command lists. -/
def catMaps (f : Nat → List TCCmd) : List Nat → List TCCmd
  | [] => []
  | x :: xs => f x ++ catMaps f xs

/-- Extract the arguments of an `addHTBClass` command. -/
def classArgs : TCCmd → Option (Nat × Nat × Nat × Nat × Nat × Nat)
  | TCCmd.addHTBClassCmd p m r c b cb => some (p, m, r, c, b, cb)
  | _ => none

lemma lt_stages_iff {lv len : Nat} : 2 * lv < len ↔ lv < (len + 1) / 2 := by
  omega

/-- Full characterization of the chain-walk loop: starting at level `lv` with
the loop-carried handles in their level-`lv` entry form and enough fuel, the
loop issues exactly the per-level commands for levels `lv, …, stages - 1`
(where `stages = ⌈len / 2⌉`) and stops with the level-`stages - 1` handles. -/
lemma chainLoop_eq (g : Config) (uid priority oldPriority oldLen len : Nat)
    (rates bursts : List ℚ) :
    ∀ fuel lv, (len + 1) / 2 ≤ lv + fuel →
    chainLoop g uid priority oldPriority oldLen len rates bursts fuel lv
        (classParent g uid priority (lv - 1)) (HTBMinor uid (lv - 1))
        (HTBHandle g uid priority (lv - 1)) =
      (catMaps (levelCmds g uid priority oldPriority oldLen len rates bursts)
         (List.range' lv ((len + 1) / 2 - lv)),
       max lv ((len + 1) / 2),
       classParent g uid priority (max lv ((len + 1) / 2) - 1),
       HTBMinor uid (max lv ((len + 1) / 2) - 1),
       HTBHandle g uid priority (max lv ((len + 1) / 2) - 1)) := by
  intro fuel
  induction fuel with
  | zero =>
      intro lv h
      have hle : (len + 1) / 2 ≤ lv := by omega
      have hstop : ¬ 2 * lv < len := by
        rw [lt_stages_iff]; omega
      have hsub : (len + 1) / 2 - lv = 0 := by omega
      have hmax : max lv ((len + 1) / 2) = lv := by omega
      simp [chainLoop, hsub, hmax, catMaps]
  | succ fuel ih =>
      intro lv h
      by_cases hcont : 2 * lv < len
      · have hlt : lv < (len + 1) / 2 := lt_stages_iff.mp hcont
        have hrec := ih (lv + 1) (by omega)
        simp only [Nat.add_sub_cancel] at hrec
        have hph1 : (if 0 < lv then HTBHandle g uid priority (lv - 1)
            else classParent g uid priority (lv - 1)) = classParent g uid priority lv := by
          rcases Nat.eq_zero_or_pos lv with h0 | h0
          · subst h0; simp [classParent]
          · simp [classParent, Nat.pos_iff_ne_zero.mp h0, Nat.not_eq_zero_of_lt h0]
        have hmn1 : (if 0 < lv then HTBMinor uid lv else HTBMinor uid (lv - 1)) =
            HTBMinor uid lv := by
          rcases Nat.eq_zero_or_pos lv with h0 | h0
          · subst h0; simp
          · simp [h0]
        have hch1 : (if 0 < lv then HTBHandle g uid priority lv
            else HTBHandle g uid priority (lv - 1)) = HTBHandle g uid priority lv := by
          rcases Nat.eq_zero_or_pos lv with h0 | h0
          · subst h0; simp
          · simp [h0]
        have hrange : List.range' lv ((len + 1) / 2 - lv) =
            lv :: List.range' (lv + 1) ((len + 1) / 2 - (lv + 1)) := by
          have : (len + 1) / 2 - lv = ((len + 1) / 2 - (lv + 1)) + 1 := by omega
          rw [this, List.range'_succ]
        have hmax2 : max lv ((len + 1) / 2) = max (lv + 1) ((len + 1) / 2) := by omega
        simp only [chainLoop, hcont, if_true, Nat.add_sub_cancel, hph1, hmn1, hch1]
        rw [hrec, hrange, hmax2]
        simp only [catMaps, levelCmds, rateAt, ceilAt]
        simp [List.append_assoc]
      · have hle : (len + 1) / 2 ≤ lv := by
          by_contra hx
          exact hcont (lt_stages_iff.mpr (by omega))
        have hsub : (len + 1) / 2 - lv = 0 := by omega
        have hmax : max lv ((len + 1) / 2) = lv := by omega
        simp [chainLoop, hcont, hsub, hmax, catMaps]

/-! ## Client-table lemmas -/

lemma findClient_setClient_self (l : List ((Nat × Nat) × Client)) (a : Nat × Nat) (c : Client) :
    findClient (setClient l a c) a = some c := by
  induction l with
  | nil => simp [setClient, findClient]
  | cons e rest ih =>
      obtain ⟨b, c0⟩ := e
      by_cases hb : b = a
      · simp [setClient, findClient, hb]
      · simp [setClient, findClient, hb, ih]

lemma findClient_setClient_ne (l : List ((Nat × Nat) × Client)) (a b : Nat × Nat) (c : Client)
    (h : b ≠ a) : findClient (setClient l a c) b = findClient l b := by
  have h' : a ≠ b := Ne.symm h
  induction l with
  | nil => simp [setClient, findClient, h']
  | cons e rest ih =>
      obtain ⟨x, c0⟩ := e
      by_cases hx : x = a
      · subst hx
        simp [setClient, findClient, h']
      · by_cases hxb : x = b <;> simp [setClient, findClient, hx, hxb, ih, h]

lemma setClient_absent (l : List ((Nat × Nat) × Client)) (a : Nat × Nat) (c : Client)
    (h : findClient l a = none) : setClient l a c = l ++ [(a, c)] := by
  induction l with
  | nil => simp [setClient]
  | cons e rest ih =>
      obtain ⟨x, c0⟩ := e
      by_cases hx : x = a
      · simp [findClient, hx] at h
      · simp only [findClient, hx, if_false, if_neg hx] at h ⊢
        simp [setClient, hx, ih h]

lemma findClient_eraseClient_self (l : List ((Nat × Nat) × Client)) (a : Nat × Nat) :
    findClient (eraseClient l a) a = none := by
  induction l with
  | nil => simp [eraseClient, findClient]
  | cons e rest ih =>
      obtain ⟨x, c0⟩ := e
      by_cases hx : x = a
      · simpa [eraseClient, hx] using ih
      · simpa [eraseClient, findClient, hx] using ih

lemma findClient_eraseClient_ne (l : List ((Nat × Nat) × Client)) (a b : Nat × Nat)
    (h : b ≠ a) : findClient (eraseClient l a) b = findClient l b := by
  have h' : a ≠ b := Ne.symm h
  induction l with
  | nil => simp [eraseClient, findClient]
  | cons e rest ih =>
      obtain ⟨x, c0⟩ := e
      by_cases hx : x = a
      · subst hx
        simpa [eraseClient, findClient, h'] using ih
      · by_cases hxb : x = b
        · simp [eraseClient, findClient, hx, hxb, h]
        · simpa [eraseClient, findClient, hx, hxb, h] using ih

lemma mem_setClient {l : List ((Nat × Nat) × Client)} {a : Nat × Nat} {c : Client}
    {e : (Nat × Nat) × Client} (h : e ∈ setClient l a c) : e ∈ l ∨ e = (a, c) := by
  induction l with
  | nil => simpa [setClient] using h
  | cons e0 rest ih =>
      obtain ⟨x, c0⟩ := e0
      by_cases hx : x = a
      · simp [setClient, hx] at h
        rcases h with h | h
        · right; simp [h]
        · left; simp [h]
      · simp [setClient, hx] at h
        rcases h with h | h
        · left; simp [h]
        · rcases ih h with h2 | h2
          · left; simp [h2]
          · right; exact h2

lemma mem_eraseClient {l : List ((Nat × Nat) × Client)} {a : Nat × Nat}
    {e : (Nat × Nat) × Client} (h : e ∈ eraseClient l a) : e ∈ l :=
  List.mem_of_mem_filter h

lemma map_setClient_present {l : List ((Nat × Nat) × Client)} {a : Nat × Nat} {c0 : Client}
    (c : Client) (h : findClient l a = some c0) {α : Type}
    (f : (Nat × Nat) × Client → α) (hf : f (a, c) = f (a, c0)) :
    (setClient l a c).map f = l.map f := by
  induction l with
  | nil => simp [findClient] at h
  | cons e rest ih =>
      obtain ⟨x, c1⟩ := e
      by_cases hx : x = a
      · subst hx
        simp [findClient] at h
        subst h
        simp [setClient, hf]
      · simp [findClient, hx] at h
        simp [setClient, hx, ih h]

/-! ## Closed form of `updateClient` -/

/-- `oldPriority` as snapshotted by `updateClient`. -/
def oldPriOf (g : Config) (s : EnfState) (addr : Nat × Nat) : Nat :=
  match findClient s.clients addr with
  | none => g.numPriorities
  | some c0 => c0.priority

/-- `oldRateLimitLength` as snapshotted by `updateClient`. -/
def oldLenOf (s : EnfState) (addr : Nat × Nat) : Nat :=
  match findClient s.clients addr with
  | none => 0
  | some c0 => c0.rateLimitLength

/-- The client record right after the snapshot phase of `updateClient`
(fresh record for a new key, else the byte-accounting update). -/
def accountedClient (g : Config) (read : Nat → Nat → Nat) (now : Nat)
    (s : EnfState) (addr : Nat × Nat) : Client :=
  match findClient s.clients addr with
  | none => { defaultClient with id := s.nextId, lastSentBytesTime := now % 2 ^ 64 }
  | some c0 => updateSentBytes g read now c0

/-- The client record stored by `updateClient` (before a possible erase). -/
def clientAfter (g : Config) (read : Nat → Nat → Nat) (now : Nat)
    (s : EnfState) (addr : Nat × Nat) (priority n : Nat) (rates : List ℚ) : Client :=
  let c2 := { accountedClient g read now s addr with
    priority := priority, rateLimitLength := n,
    rate := if 0 < n then rates.getD 0 0 else (g.maxRate : ℚ) }
  if oldPriOf g s addr ≠ priority then { c2 with prevSentBytes := 0 } else c2

/-- The full command trace of one non-gated `updateClient` call. -/
def traceAfter (g : Config) (s : EnfState) (addr : Nat × Nat)
    (priority n : Nat) (rates bursts : List ℚ) : List TCCmd :=
  let uid := effectiveId s addr
  let oldP := oldPriOf g s addr
  let oldL := oldLenOf s addr
  catMaps (levelCmds g uid priority oldP oldL n rates bursts) (List.range' 0 ((n + 1) / 2))
  ++ (if 0 < n ∧ (oldL = 0 ∨ oldP ≠ priority)
      then [TCCmd.addFilterCmd (HTBBaseHandle g priority) uid addr.1 addr.2 (HTBMinor uid 0)]
      else [])
  ++ (if oldP ≠ priority then
        (if oldP < g.numPriorities then [TCCmd.removeFilterCmd rootHTBHandle uid] else [])
          ++ (if priority < g.numPriorities
              then [TCCmd.addFilterCmd rootHTBHandle uid addr.1 addr.2 (rootHTBMinor priority)]
              else [])
      else [])
  ++ (if 2 < oldL then
        if oldP ≠ priority then
          [TCCmd.removeQdiscCmd (HTBBaseHandle g oldP) (HTBMinor uid 0) (HTBHandle g uid oldP 0)]
        else if 2 * ((n + 1) / 2) < oldL then
          [TCCmd.removeQdiscCmd (classParent g uid priority ((n + 1) / 2 - 1))
            (HTBMinor uid ((n + 1) / 2 - 1)) (HTBHandle g uid priority ((n + 1) / 2 - 1))]
        else []
      else [])
  ++ (if 0 < oldL ∧ (n = 0 ∨ oldP ≠ priority)
      then [TCCmd.removeFilterCmd (HTBBaseHandle g oldP) uid,
            TCCmd.removeClassCmd (HTBBaseHandle g oldP) (HTBMinor uid 0)]
      else [])

lemma updateSentBytes_id (g : Config) (read : Nat → Nat → Nat) (now : Nat) (c : Client) :
    (updateSentBytes g read now c).id = c.id := by
  unfold updateSentBytes
  split <;> rfl

lemma chainLoop_call (g : Config) (uid priority oldPriority oldLen len : Nat)
    (rates bursts : List ℚ) :
    chainLoop g uid priority oldPriority oldLen len rates bursts len 0
        (HTBBaseHandle g priority) (HTBMinor uid 0) (HTBHandle g uid priority 0) =
      (catMaps (levelCmds g uid priority oldPriority oldLen len rates bursts)
         (List.range' 0 ((len + 1) / 2)),
       (len + 1) / 2,
       classParent g uid priority ((len + 1) / 2 - 1),
       HTBMinor uid ((len + 1) / 2 - 1),
       HTBHandle g uid priority ((len + 1) / 2 - 1)) := by
  have h := chainLoop_eq g uid priority oldPriority oldLen len rates bursts len 0 (by omega)
  simpa [classParent] using h

/-- Closed-form description of `updateClient` when the existence gate does
not fire: the stored/erased client is `clientAfter`, the id counter advances
exactly on insertion, and the trace is `traceAfter`. -/
lemma updateClient_spec (g : Config) (read : Nat → Nat → Nat) (now : Nat)
    (s : EnfState) (dst src priority n : Nat) (rates bursts : List ℚ)
    (hgate : ¬(findClient s.clients (dst, src) = none ∧ priority = g.numPriorities)) :
    updateClient g read now s dst src priority n rates bursts =
      (⟨(if priority = g.numPriorities then
           eraseClient (setClient s.clients (dst, src)
             (clientAfter g read now s (dst, src) priority n rates)) (dst, src)
         else setClient s.clients (dst, src)
             (clientAfter g read now s (dst, src) priority n rates)),
        match findClient s.clients (dst, src) with
        | none => (s.nextId + 1) % 2 ^ 32
        | some _ => s.nextId⟩,
       traceAfter g s (dst, src) priority n rates bursts) := by
  rcases hfound : findClient s.clients (dst, src) with _ | c0
  · have hpr : ¬ priority = g.numPriorities := fun hp => hgate ⟨hfound, hp⟩
    simp only [updateClient, hfound, hpr, and_true, if_false, if_neg hpr]
    rw [chainLoop_call]
    simp [clientAfter, traceAfter, effectiveId, oldPriOf, oldLenOf, accountedClient, hfound, hpr,
      Ne.symm hpr]
  · simp only [updateClient, hfound, false_and, if_false]
    have hid : (updateSentBytes g read now c0).id = c0.id := updateSentBytes_id g read now c0
    rw [hid, chainLoop_call]
    simp [clientAfter, traceAfter, effectiveId, oldPriOf, oldLenOf, accountedClient, hfound, hid]

/-! ## Claim C9 -/

/-- C9: for a `(dst, src)` with no table entry, `updateClient` with
`priority = g_numPriorities` is a complete no-op: state unchanged (no entry
inserted, id counter untouched) and no TC command issued. -/
theorem C9_new_sentinel_noop (g : Config) (read : Nat → Nat → Nat) (now : Nat)
    (s : EnfState) (dst src n : Nat) (rates bursts : List ℚ)
    (h : findClient s.clients (dst, src) = none) :
    updateClient g read now s dst src g.numPriorities n rates bursts = (s, []) := by
  simp [updateClient, h]

/-- Witness for C9 at a concrete input. -/
theorem C9_new_sentinel_noop_witness :
    findClient (EnfState.mk [] 0).clients (1, 2) = none ∧
      updateClient cfg7 (fun _ _ => 0) 0 (EnfState.mk [] 0) 1 2 cfg7.numPriorities 0 [] [] =
        (EnfState.mk [] 0, []) :=
  ⟨rfl, C9_new_sentinel_noop cfg7 (fun _ _ => 0) 0 (EnfState.mk [] 0) 1 2 0 [] [] rfl⟩

/-! ## Claim C3 -/

/-- C3: a `RemoveClients` item for a present client `c` with
`c.priority < g_numPriorities` (processed as `updateClient` with
`priority = g_numPriorities` and empty chain) issues exactly: the root-HTB
filter removal, then — when the chain length exceeds 2 — the removal of the
per-client qdisc chain rooted at `HTBHandle(id, p, 0)` below
`HTBBaseHandle(p)`, then — when the chain length is positive — the removal
of the per-priority base filter and of the level-0 class on
`HTBBaseHandle(p)`; and the client's entry is erased from the table. -/
theorem C3_remove_teardown (g : Config) (read : Nat → Nat → Nat) (now : Nat)
    (s : EnfState) (dst src : Nat) (c : Client)
    (hfind : findClient s.clients (dst, src) = some c)
    (hp : c.priority < g.numPriorities) :
    (updateClient g read now s dst src g.numPriorities 0 [] []).2 =
        TCCmd.removeFilterCmd rootHTBHandle c.id
          :: ((if 2 < c.rateLimitLength then
                [TCCmd.removeQdiscCmd (HTBBaseHandle g c.priority) (HTBMinor c.id 0)
                  (HTBHandle g c.id c.priority 0)]
              else [])
            ++ (if 0 < c.rateLimitLength then
                  [TCCmd.removeFilterCmd (HTBBaseHandle g c.priority) c.id,
                   TCCmd.removeClassCmd (HTBBaseHandle g c.priority) (HTBMinor c.id 0)]
                else [])) ∧
      findClient (updateClient g read now s dst src g.numPriorities 0 [] []).1.clients
        (dst, src) = none := by
  have hne : c.priority ≠ g.numPriorities := Nat.ne_of_lt hp
  rw [updateClient_spec g read now s dst src g.numPriorities 0 [] []
    (by simp [hfind])]
  constructor
  · simp [traceAfter, oldPriOf, oldLenOf, effectiveId, hfind, hne, hp, catMaps]
  · simp [findClient_eraseClient_self]

/-- Witness for C3 at a concrete input (client at priority 3 with chain
length 4). -/
theorem C3_remove_teardown_witness :
    (findClient [((1, 2), Client.mk 5 3 4 10 0 0 0 0)] (1, 2) =
        some (Client.mk 5 3 4 10 0 0 0 0) ∧ 3 < cfg7.numPriorities) ∧
      ((updateClient cfg7 (fun _ _ => 0) 0 (EnfState.mk [((1, 2), Client.mk 5 3 4 10 0 0 0 0)] 6)
          1 2 cfg7.numPriorities 0 [] []).2 =
        TCCmd.removeFilterCmd rootHTBHandle 5
          :: ((if 2 < 4 then
                [TCCmd.removeQdiscCmd (HTBBaseHandle cfg7 3) (HTBMinor 5 0) (HTBHandle cfg7 5 3 0)]
              else [])
            ++ (if 0 < 4 then
                  [TCCmd.removeFilterCmd (HTBBaseHandle cfg7 3) 5,
                   TCCmd.removeClassCmd (HTBBaseHandle cfg7 3) (HTBMinor 5 0)]
                else [])) ∧
      findClient (updateClient cfg7 (fun _ _ => 0) 0
          (EnfState.mk [((1, 2), Client.mk 5 3 4 10 0 0 0 0)] 6) 1 2 cfg7.numPriorities 0 [] []).1.clients
        (1, 2) = none) :=
  ⟨⟨by decide, by decide⟩,
    C3_remove_teardown cfg7 (fun _ _ => 0) 0 (EnfState.mk [((1, 2), Client.mk 5 3 4 10 0 0 0 0)] 6)
      1 2 (Client.mk 5 3 4 10 0 0 0 0) (by decide) (by decide)⟩

/-! ## Claim C1 -/

lemma classArgs_catMaps (g : Config) (uid priority oldP oldL len : Nat)
    (rates bursts : List ℚ) (l : List Nat) :
    (catMaps (levelCmds g uid priority oldP oldL len rates bursts) l).filterMap classArgs =
      l.map (fun lv => (classParent g uid priority lv, HTBMinor uid lv,
        rateAt rates lv, ceilAt rates len lv, rateAt bursts lv, ceilAt bursts len lv)) := by
  induction l with
  | nil => simp [catMaps]
  | cons x xs ih =>
      simp only [catMaps, List.filterMap_append, ih, List.map_cons]
      simp only [levelCmds, List.filterMap_append]
      split <;> simp [classArgs]

/-- C1: for `priority < g_numPriorities` and an even chain length `n`, the
`addHTBClass` calls issued by `updateClient` are exactly one per level
`lv ∈ [0, n / 2)`, with `rate = rates[2lv]`, `burst = bursts[2lv]`,
`ceil/cburst` from index `2lv + 1` when `2lv + 1 < n` (else equal to
rate/burst); the level-0 class is on qdisc `HTBBaseHandle(priority)` with
minor `id + 2`, and every deeper class is on the previous level's per-client
qdisc handle with minor `1`. -/
theorem C1_chain_classes (g : Config) (read : Nat → Nat → Nat) (now : Nat)
    (s : EnfState) (dst src priority n : Nat) (rates bursts : List ℚ)
    (hpri : priority < g.numPriorities) (heven : n % 2 = 0)
    (hid : effectiveId s (dst, src) + 2 < 2 ^ 32) :
    ((updateClient g read now s dst src priority n rates bursts).2).filterMap classArgs =
      (List.range (n / 2)).map (fun lv =>
        ((if lv = 0 then HTBBaseHandle g priority
          else HTBHandle g (effectiveId s (dst, src)) priority (lv - 1)),
         (if lv = 0 then effectiveId s (dst, src) + 2 else 1),
         rateAt rates lv, ceilAt rates n lv, rateAt bursts lv, ceilAt bursts n lv)) := by
  have hne : priority ≠ g.numPriorities := Nat.ne_of_lt hpri
  rw [updateClient_spec g read now s dst src priority n rates bursts
    (fun h => hne h.2)]
  unfold traceAfter
  simp only [List.filterMap_append, classArgs_catMaps,
    apply_ite (List.filterMap classArgs)]
  have h2 : (n + 1) / 2 = n / 2 := by omega
  rw [h2, ← List.range_eq_range']
  simp only [List.filterMap_nil, List.filterMap_cons, classArgs, ite_self,
    List.append_nil]
  refine List.map_congr_left ?_
  intro lv _
  have hmod : (effectiveId s (dst, src) + 2) % 4294967296 = effectiveId s (dst, src) + 2 :=
    Nat.mod_eq_of_lt (by omega)
  simp [classParent, HTBMinor, hmod]

/-- Witness for C1 at a concrete input (fresh client, priority 2, chain
length 4). -/
theorem C1_chain_classes_witness :
    (2 < cfg7.numPriorities ∧ 4 % 2 = 0 ∧
        effectiveId (EnfState.mk [] 0) (1, 2) + 2 < 2 ^ 32) ∧
      ((updateClient cfg7 (fun _ _ => 0) 0 (EnfState.mk [] 0) 1 2 2 4
          [10, 20, 30, 40] [1, 2, 3, 4]).2).filterMap classArgs =
        (List.range (4 / 2)).map (fun lv =>
          ((if lv = 0 then HTBBaseHandle cfg7 2
            else HTBHandle cfg7 (effectiveId (EnfState.mk [] 0) (1, 2)) 2 (lv - 1)),
           (if lv = 0 then effectiveId (EnfState.mk [] 0) (1, 2) + 2 else 1),
           rateAt [10, 20, 30, 40] lv, ceilAt [10, 20, 30, 40] 4 lv,
           rateAt [1, 2, 3, 4] lv, ceilAt [1, 2, 3, 4] 4 lv)) :=
  ⟨⟨by decide, by decide, by decide⟩,
    C1_chain_classes cfg7 (fun _ _ => 0) 0 (EnfState.mk [] 0) 1 2 2 4
      [10, 20, 30, 40] [1, 2, 3, 4] (by decide) (by decide) (by decide)⟩

/-! ## Claim C4 -/

lemma catMaps_eq_map (f : Nat → List TCCmd) (gf : Nat → TCCmd) :
    ∀ l : List Nat, (∀ x ∈ l, f x = [gf x]) → catMaps f l = l.map gf := by
  intro l
  induction l with
  | nil => intro _; simp [catMaps]
  | cons x xs ih =>
      intro h
      have hx := h x (by simp)
      simp [catMaps, hx, ih (fun y hy => h y (by simp [hy]))]

lemma clientAfter_priority (g : Config) (read : Nat → Nat → Nat) (now : Nat)
    (s : EnfState) (addr : Nat × Nat) (priority n : Nat) (rates : List ℚ) :
    (clientAfter g read now s addr priority n rates).priority = priority := by
  unfold clientAfter
  by_cases h : oldPriOf g s addr ≠ priority <;> simp [h]

lemma clientAfter_len (g : Config) (read : Nat → Nat → Nat) (now : Nat)
    (s : EnfState) (addr : Nat × Nat) (priority n : Nat) (rates : List ℚ) :
    (clientAfter g read now s addr priority n rates).rateLimitLength = n := by
  unfold clientAfter
  by_cases h : oldPriOf g s addr ≠ priority <;> simp [h]

lemma clientAfter_rate (g : Config) (read : Nat → Nat → Nat) (now : Nat)
    (s : EnfState) (addr : Nat × Nat) (priority n : Nat) (rates : List ℚ) :
    (clientAfter g read now s addr priority n rates).rate =
      (if 0 < n then rates.getD 0 0 else (g.maxRate : ℚ)) := by
  unfold clientAfter
  by_cases h : oldPriOf g s addr ≠ priority <;> simp [h]

lemma clientAfter_id (g : Config) (read : Nat → Nat → Nat) (now : Nat)
    (s : EnfState) (addr : Nat × Nat) (priority n : Nat) (rates : List ℚ) :
    (clientAfter g read now s addr priority n rates).id = effectiveId s addr := by
  unfold clientAfter effectiveId accountedClient
  cases hf : findClient s.clients addr with
  | none => by_cases h : oldPriOf g s addr ≠ priority <;> simp [h]
  | some c0 =>
      by_cases h : oldPriOf g s addr ≠ priority <;> simp [h, updateSentBytes_id]

/-- C4: calling `updateClient` twice with identical arguments (priority
below `g_numPriorities`), the second call issues exactly the per-level
`addHTBClass` replacements — no qdisc installs, no filter mutations, no
removals — and the stored `priority`, `rateLimitLength` and `rate` equal
their values after the first call. -/
theorem C4_idempotent (g : Config) (read1 : Nat → Nat → Nat) (now1 : Nat)
    (read2 : Nat → Nat → Nat) (now2 : Nat) (s : EnfState)
    (dst src priority n : Nat) (rates bursts : List ℚ)
    (hpri : priority < g.numPriorities) :
    (updateClient g read2 now2 (updateClient g read1 now1 s dst src priority n rates bursts).1
        dst src priority n rates bursts).2 =
      (List.range ((n + 1) / 2)).map (fun lv =>
        TCCmd.addHTBClassCmd (classParent g (effectiveId s (dst, src)) priority lv)
          (HTBMinor (effectiveId s (dst, src)) lv) (rateAt rates lv) (ceilAt rates n lv)
          (rateAt bursts lv) (ceilAt bursts n lv)) ∧
    (findClient (updateClient g read2 now2
          (updateClient g read1 now1 s dst src priority n rates bursts).1
          dst src priority n rates bursts).1.clients (dst, src)).map
        (fun c => (c.priority, c.rateLimitLength, c.rate)) =
      some (priority, n, if 0 < n then rates.getD 0 0 else (g.maxRate : ℚ)) ∧
    (findClient (updateClient g read1 now1 s dst src priority n rates bursts).1.clients
        (dst, src)).map (fun c => (c.priority, c.rateLimitLength, c.rate)) =
      some (priority, n, if 0 < n then rates.getD 0 0 else (g.maxRate : ℚ)) := by
  have hne : priority ≠ g.numPriorities := Nat.ne_of_lt hpri
  have hs1 : findClient (updateClient g read1 now1 s dst src priority n rates bursts).1.clients
      (dst, src) = some (clientAfter g read1 now1 s (dst, src) priority n rates) := by
    rw [updateClient_spec g read1 now1 s dst src priority n rates bursts (fun h => hne h.2)]
    simp [hne, findClient_setClient_self]
  have h2 := updateClient_spec g read2 now2
    (updateClient g read1 now1 s dst src priority n rates bursts).1 dst src priority n rates
    bursts (by simp [hs1])
  have hop : oldPriOf g (updateClient g read1 now1 s dst src priority n rates bursts).1
      (dst, src) = priority := by
    simp [oldPriOf, hs1, clientAfter_priority]
  have hol : oldLenOf (updateClient g read1 now1 s dst src priority n rates bursts).1
      (dst, src) = n := by
    simp [oldLenOf, hs1, clientAfter_len]
  have hei : effectiveId (updateClient g read1 now1 s dst src priority n rates bursts).1
      (dst, src) = effectiveId s (dst, src) := by
    simp [effectiveId, hs1, clientAfter_id]
  have hfilter : ¬ (0 < n ∧ (n = 0 ∨ priority ≠ priority)) := by
    rintro ⟨h0, h | h⟩
    · omega
    · exact h rfl
  have hroot : ¬ (priority ≠ priority) := fun h => h rfl
  have hprune : ¬ 2 * ((n + 1) / 2) < n := by omega
  refine ⟨?_, ?_, ?_⟩
  · rw [h2]
    unfold traceAfter
    rw [hop, hol, hei]
    dsimp only
    have hchain : catMaps (levelCmds g (effectiveId s (dst, src)) priority priority n n
        rates bursts) (List.range' 0 ((n + 1) / 2)) =
        (List.range' 0 ((n + 1) / 2)).map (fun lv =>
          TCCmd.addHTBClassCmd (classParent g (effectiveId s (dst, src)) priority lv)
            (HTBMinor (effectiveId s (dst, src)) lv) (rateAt rates lv) (ceilAt rates n lv)
            (rateAt bursts lv) (ceilAt bursts n lv)) := by
      refine catMaps_eq_map _ _ _ ?_
      intro lv hlv
      have hlt : lv < (n + 1) / 2 := by
        have := List.mem_range'_1.mp hlv
        omega
      have hq : ¬ (0 < lv ∧ (n ≤ 2 * lv ∨ priority ≠ priority)) := by
        rintro ⟨h0, h | h⟩
        · omega
        · exact h rfl
      simp only [levelCmds, eq_false hq, if_false]
      simp
    rw [hchain, ← List.range_eq_range']
    have h00 : ¬ (0 < n ∧ n = 0) := by omega
    simp [h00, hprune, hroot]
  · rw [h2]
    simp [if_neg hne, findClient_setClient_self, clientAfter_priority, clientAfter_len,
      clientAfter_rate]
  · rw [hs1]
    simp [clientAfter_priority, clientAfter_len, clientAfter_rate]

/-- Witness for C4 at a concrete input (priority 3, chain length 4,
repeated twice from the empty table). -/
theorem C4_idempotent_witness :
    3 < cfg7.numPriorities ∧
      (updateClient cfg7 (fun _ _ => 0) 7
            (updateClient cfg7 (fun _ _ => 0) 0 (EnfState.mk [] 0) 1 2 3 4
              [10, 20, 30, 40] [1, 2, 3, 4]).1
            1 2 3 4 [10, 20, 30, 40] [1, 2, 3, 4]).2 =
        (List.range ((4 + 1) / 2)).map (fun lv =>
          TCCmd.addHTBClassCmd (classParent cfg7 (effectiveId (EnfState.mk [] 0) (1, 2)) 3 lv)
            (HTBMinor (effectiveId (EnfState.mk [] 0) (1, 2)) lv)
            (rateAt [10, 20, 30, 40] lv) (ceilAt [10, 20, 30, 40] 4 lv)
            (rateAt [1, 2, 3, 4] lv) (ceilAt [1, 2, 3, 4] 4 lv)) ∧
      (findClient (updateClient cfg7 (fun _ _ => 0) 7
            (updateClient cfg7 (fun _ _ => 0) 0 (EnfState.mk [] 0) 1 2 3 4
              [10, 20, 30, 40] [1, 2, 3, 4]).1
            1 2 3 4 [10, 20, 30, 40] [1, 2, 3, 4]).1.clients (1, 2)).map
          (fun c => (c.priority, c.rateLimitLength, c.rate)) =
        some (3, 4, (10 : ℚ)) ∧
      (findClient (updateClient cfg7 (fun _ _ => 0) 0 (EnfState.mk [] 0) 1 2 3 4
            [10, 20, 30, 40] [1, 2, 3, 4]).1.clients (1, 2)).map
          (fun c => (c.priority, c.rateLimitLength, c.rate)) =
        some (3, 4, (10 : ℚ)) :=
  ⟨by decide,
    C4_idempotent cfg7 (fun _ _ => 0) 0 (fun _ _ => 0) 7 (EnfState.mk [] 0) 1 2 3 4
      [10, 20, 30, 40] [1, 2, 3, 4] (by decide)⟩

/-! ## Handle arithmetic under no-overflow bounds -/

lemma rootHTBMinor_eq {p : Nat} (h : p + 1 < 2 ^ 32) : rootHTBMinor p = p + 1 := by
  unfold rootHTBMinor
  exact Nat.mod_eq_of_lt h

lemma rootHTBMinorHelper_eq (g : Config) (hsmall : 4 * g.numPriorities + 2 < 2 ^ 32)
    {p : Nat} (hp : p ≤ g.numPriorities) :
    rootHTBMinorHelper g p = p + g.numPriorities + 1 := by
  unfold rootHTBMinorHelper
  rw [rootHTBMinor_eq (by omega)]
  exact Nat.mod_eq_of_lt (by omega)

lemma rootHTBMinorDefault_eq (g : Config) (hsmall : 4 * g.numPriorities + 2 < 2 ^ 32) :
    rootHTBMinorDefault g = 2 * g.numPriorities + 1 := by
  unfold rootHTBMinorDefault
  rw [rootHTBMinorHelper_eq g hsmall (Nat.le_refl g.numPriorities)]
  omega

lemma DSMARKHandle_eq (g : Config) (hsmall : 4 * g.numPriorities + 2 < 2 ^ 32)
    {p : Nat} (hp : p ≤ g.numPriorities) :
    DSMARKHandle g p = p + 2 * g.numPriorities + 2 := by
  unfold DSMARKHandle
  rw [rootHTBMinorDefault_eq g hsmall]
  exact Nat.mod_eq_of_lt (by omega)

lemma HTBBaseHandle_eq (g : Config) (hsmall : 4 * g.numPriorities + 2 < 2 ^ 32)
    {p : Nat} (hp : p ≤ g.numPriorities) :
    HTBBaseHandle g p = p + 3 * g.numPriorities + 2 := by
  unfold HTBBaseHandle
  rw [DSMARKHandle_eq g hsmall (Nat.le_refl g.numPriorities)]
  have hb : p + (g.numPriorities + 2 * g.numPriorities + 2) < 2 ^ 32 := by omega
  rw [Nat.mod_eq_of_lt hb]
  omega

lemma HTBBaseHandle_ne_root (g : Config) (hsmall : 4 * g.numPriorities + 2 < 2 ^ 32)
    {p : Nat} (hp : p ≤ g.numPriorities) : HTBBaseHandle g p ≠ rootHTBHandle := by
  rw [HTBBaseHandle_eq g hsmall hp]
  unfold rootHTBHandle
  omega

/-! ## Shapes of the chain-walk commands -/

lemma mem_levelCmds_shape {g : Config} {uid priority oldP oldL len : Nat}
    {rates bursts : List ℚ} {lv : Nat} {x : TCCmd}
    (h : x ∈ levelCmds g uid priority oldP oldL len rates bursts lv) :
    (∃ a b c, x = TCCmd.addHTBQdiscCmd a b c) ∨
      (∃ a b c d e f, x = TCCmd.addHTBClassCmd a b c d e f) := by
  simp only [levelCmds, List.mem_append] at h
  rcases h with h | h
  · split at h
    · simp only [List.mem_singleton] at h
      exact Or.inl ⟨_, _, _, h⟩
    · simp at h
  · simp only [List.mem_singleton] at h
    exact Or.inr ⟨_, _, _, _, _, _, h⟩

lemma mem_catMaps {f : Nat → List TCCmd} {l : List Nat} {x : TCCmd}
    (h : x ∈ catMaps f l) : ∃ lv ∈ l, x ∈ f lv := by
  induction l with
  | nil => simp [catMaps] at h
  | cons y ys ih =>
      simp only [catMaps, List.mem_append] at h
      rcases h with h | h
      · exact ⟨y, by simp, h⟩
      · obtain ⟨lv, hlv, hx⟩ := ih h
        exact ⟨lv, by simp [hlv], hx⟩

lemma removeFilter_not_mem_chain {g : Config} {uid priority oldP oldL len : Nat}
    {rates bursts : List ℚ} {l : List Nat} {p i : Nat} :
    TCCmd.removeFilterCmd p i ∉
      catMaps (levelCmds g uid priority oldP oldL len rates bursts) l := by
  intro h
  obtain ⟨lv, _, hx⟩ := mem_catMaps h
  rcases mem_levelCmds_shape hx with ⟨a, b, c, hc⟩ | ⟨a, b, c, d, e, f, hc⟩ <;> simp at hc

lemma addFilter_not_mem_chain {g : Config} {uid priority oldP oldL len : Nat}
    {rates bursts : List ℚ} {l : List Nat} {p i d s' m : Nat} :
    TCCmd.addFilterCmd p i d s' m ∉
      catMaps (levelCmds g uid priority oldP oldL len rates bursts) l := by
  intro h
  obtain ⟨lv, _, hx⟩ := mem_catMaps h
  rcases mem_levelCmds_shape hx with ⟨a, b, c, hc⟩ | ⟨a, b, c, d', e, f, hc⟩ <;> simp at hc

lemma clientAfter_prev_changed {g : Config} {read : Nat → Nat → Nat} {now : Nat}
    {s : EnfState} {addr : Nat × Nat} {priority n : Nat} {rates : List ℚ}
    (h : oldPriOf g s addr ≠ priority) :
    (clientAfter g read now s addr priority n rates).prevSentBytes = 0 := by
  unfold clientAfter
  simp [h]

lemma clientAfter_prev_same {g : Config} {read : Nat → Nat → Nat} {now : Nat}
    {s : EnfState} {addr : Nat × Nat} {priority n : Nat} {rates : List ℚ}
    (h : oldPriOf g s addr = priority) :
    (clientAfter g read now s addr priority n rates).prevSentBytes =
      (accountedClient g read now s addr).prevSentBytes := by
  unfold clientAfter
  simp [h]

/-! ## Claim C2 -/

lemma not_mem_ite {P : Prop} [Decidable P] {l1 l2 : List TCCmd} {x : TCCmd}
    (h1 : x ∉ l1) (h2 : x ∉ l2) : x ∉ (if P then l1 else l2) := by
  split <;> assumption

lemma not_mem_ite_nil {P : Prop} [Decidable P] {l : List TCCmd} {x : TCCmd}
    (h : x ∉ l) : x ∉ (if P then l else []) := by
  split
  · exact h
  · simp

/-- C2: for an existing client `c`, when the new priority differs from
`c.priority` the root-HTB filter removal (`prio = id + 1`) is issued iff the
old priority is `< g_numPriorities`, the root-HTB filter add towards
`rootHTBMinor(priority)` is issued iff the new priority is
`< g_numPriorities`, and the stored `prevSentBytes` is zeroed; when the
priority is unchanged, no root-HTB filter command is issued at all and
`prevSentBytes` is exactly what the `updateSentBytes` accounting left. -/
theorem C2_root_filter_switch (g : Config) (read : Nat → Nat → Nat) (now : Nat)
    (s : EnfState) (dst src priority n : Nat) (rates bursts : List ℚ) (c : Client)
    (hfind : findClient s.clients (dst, src) = some c)
    (hsmall : 4 * g.numPriorities + 2 < 2 ^ 32)
    (hcp : c.priority ≤ g.numPriorities)
    (hpr : priority ≤ g.numPriorities) :
    (c.priority ≠ priority →
      ((TCCmd.removeFilterCmd rootHTBHandle c.id ∈
          (updateClient g read now s dst src priority n rates bursts).2) ↔
        c.priority < g.numPriorities) ∧
      ((TCCmd.addFilterCmd rootHTBHandle c.id dst src (rootHTBMinor priority) ∈
          (updateClient g read now s dst src priority n rates bursts).2) ↔
        priority < g.numPriorities) ∧
      (priority ≠ g.numPriorities →
        (findClient (updateClient g read now s dst src priority n rates bursts).1.clients
          (dst, src)).map (fun x => x.prevSentBytes) = some 0)) ∧
    (c.priority = priority →
      (∀ i, TCCmd.removeFilterCmd rootHTBHandle i ∉
        (updateClient g read now s dst src priority n rates bursts).2) ∧
      (∀ i d s' m, TCCmd.addFilterCmd rootHTBHandle i d s' m ∉
        (updateClient g read now s dst src priority n rates bursts).2) ∧
      (priority ≠ g.numPriorities →
        (findClient (updateClient g read now s dst src priority n rates bursts).1.clients
          (dst, src)).map (fun x => x.prevSentBytes) =
          some (updateSentBytes g read now c).prevSentBytes)) := by
  have hspec := updateClient_spec g read now s dst src priority n rates bursts
    (by simp [hfind])
  have hop : oldPriOf g s (dst, src) = c.priority := by simp [oldPriOf, hfind]
  have hol : oldLenOf s (dst, src) = c.rateLimitLength := by simp [oldLenOf, hfind]
  have hei : effectiveId s (dst, src) = c.id := by simp [effectiveId, hfind]
  have hbase_old : HTBBaseHandle g c.priority ≠ rootHTBHandle :=
    HTBBaseHandle_ne_root g hsmall hcp
  have hbase_new : HTBBaseHandle g priority ≠ rootHTBHandle :=
    HTBBaseHandle_ne_root g hsmall hpr
  have htrace : (updateClient g read now s dst src priority n rates bursts).2 =
      catMaps (levelCmds g c.id priority c.priority c.rateLimitLength n rates bursts)
        (List.range' 0 ((n + 1) / 2))
      ++ (if 0 < n ∧ (c.rateLimitLength = 0 ∨ c.priority ≠ priority)
          then [TCCmd.addFilterCmd (HTBBaseHandle g priority) c.id dst src (HTBMinor c.id 0)]
          else [])
      ++ (if c.priority ≠ priority then
            (if c.priority < g.numPriorities
             then [TCCmd.removeFilterCmd rootHTBHandle c.id] else [])
              ++ (if priority < g.numPriorities
                  then [TCCmd.addFilterCmd rootHTBHandle c.id dst src (rootHTBMinor priority)]
                  else [])
          else [])
      ++ (if 2 < c.rateLimitLength then
            if c.priority ≠ priority then
              [TCCmd.removeQdiscCmd (HTBBaseHandle g c.priority) (HTBMinor c.id 0)
                (HTBHandle g c.id c.priority 0)]
            else if 2 * ((n + 1) / 2) < c.rateLimitLength then
              [TCCmd.removeQdiscCmd (classParent g c.id priority ((n + 1) / 2 - 1))
                (HTBMinor c.id ((n + 1) / 2 - 1)) (HTBHandle g c.id priority ((n + 1) / 2 - 1))]
            else []
          else [])
      ++ (if 0 < c.rateLimitLength ∧ (n = 0 ∨ c.priority ≠ priority)
          then [TCCmd.removeFilterCmd (HTBBaseHandle g c.priority) c.id,
                TCCmd.removeClassCmd (HTBBaseHandle g c.priority) (HTBMinor c.id 0)]
          else []) := by
    rw [hspec]
    unfold traceAfter
    dsimp only
    rw [hop, hol, hei]
  have hstore : priority ≠ g.numPriorities →
      findClient (updateClient g read now s dst src priority n rates bursts).1.clients
        (dst, src) = some (clientAfter g read now s (dst, src) priority n rates) := by
    intro hne
    rw [hspec]
    simp [if_neg hne, findClient_setClient_self]
  constructor
  · intro hneq
    have hnold : oldPriOf g s (dst, src) ≠ priority := by
      rw [hop]; exact hneq
    refine ⟨?_, ?_, ?_⟩
    · by_cases hc : c.priority < g.numPriorities
      · simp [htrace, hneq, hc]
      · refine iff_of_false ?_ hc
        rw [htrace]
        simp only [List.mem_append, not_or]
        refine ⟨⟨⟨⟨?_, ?_⟩, ?_⟩, ?_⟩, ?_⟩
        · exact removeFilter_not_mem_chain
        · exact not_mem_ite_nil (by simp)
        · rw [if_pos hneq]
          simp only [List.mem_append, not_or]
          refine ⟨?_, ?_⟩
          · rw [if_neg hc]; simp
          · exact not_mem_ite_nil (by simp)
        · exact not_mem_ite_nil (not_mem_ite (by simp) (not_mem_ite_nil (by simp)))
        · exact not_mem_ite_nil (by simp [Ne.symm hbase_old])
    · by_cases hc2 : priority < g.numPriorities
      · simp [htrace, hneq, hc2]
      · refine iff_of_false ?_ hc2
        rw [htrace]
        simp only [List.mem_append, not_or]
        refine ⟨⟨⟨⟨?_, ?_⟩, ?_⟩, ?_⟩, ?_⟩
        · exact addFilter_not_mem_chain
        · exact not_mem_ite_nil (by simp [Ne.symm hbase_new])
        · rw [if_pos hneq]
          simp only [List.mem_append, not_or]
          refine ⟨?_, ?_⟩
          · exact not_mem_ite_nil (by simp)
          · rw [if_neg hc2]; simp
        · exact not_mem_ite_nil (not_mem_ite (by simp) (not_mem_ite_nil (by simp)))
        · exact not_mem_ite_nil (by simp)
    · intro hnp
      rw [hstore hnp]
      simp [clientAfter_prev_changed hnold]
  · intro heq
    have hold : oldPriOf g s (dst, src) = priority := by
      rw [hop]; exact heq
    refine ⟨?_, ?_, ?_⟩
    · intro i
      rw [htrace]
      simp only [List.mem_append, not_or]
      refine ⟨⟨⟨⟨?_, ?_⟩, ?_⟩, ?_⟩, ?_⟩
      · exact removeFilter_not_mem_chain
      · exact not_mem_ite_nil (by simp)
      · rw [if_neg (by simp [heq])]
        simp
      · exact not_mem_ite_nil (not_mem_ite (by simp) (not_mem_ite_nil (by simp)))
      · exact not_mem_ite_nil (by simp [Ne.symm hbase_old])
    · intro i d s' m
      rw [htrace]
      simp only [List.mem_append, not_or]
      refine ⟨⟨⟨⟨?_, ?_⟩, ?_⟩, ?_⟩, ?_⟩
      · exact addFilter_not_mem_chain
      · exact not_mem_ite_nil (by simp [Ne.symm hbase_new])
      · rw [if_neg (by simp [heq])]
        simp
      · exact not_mem_ite_nil (not_mem_ite (by simp) (not_mem_ite_nil (by simp)))
      · exact not_mem_ite_nil (by simp)
    · intro hnp
      rw [hstore hnp]
      simp [clientAfter_prev_same hold, accountedClient, hfind]

/-- Witness for C2 at a concrete input (client at priority 2 moved to
priority 5). -/
theorem C2_root_filter_switch_witness :
    (findClient [((1, 2), Client.mk 4 2 2 5 0 0 9 0)] (1, 2) =
        some (Client.mk 4 2 2 5 0 0 9 0) ∧
      4 * cfg7.numPriorities + 2 < 2 ^ 32 ∧
      (Client.mk 4 2 2 5 0 0 9 0).priority ≤ cfg7.numPriorities ∧
      5 ≤ cfg7.numPriorities ∧ (Client.mk 4 2 2 5 0 0 9 0).priority ≠ 5) ∧
    ((TCCmd.removeFilterCmd rootHTBHandle (Client.mk 4 2 2 5 0 0 9 0).id ∈
        (updateClient cfg7 (fun _ _ => 0) 0
          (EnfState.mk [((1, 2), Client.mk 4 2 2 5 0 0 9 0)] 5) 1 2 5 2 [5, 6] [1, 1]).2) ↔
      (Client.mk 4 2 2 5 0 0 9 0).priority < cfg7.numPriorities) :=
  ⟨⟨rfl, by decide, by decide, by decide, by decide⟩,
    ((C2_root_filter_switch cfg7 (fun _ _ => 0) 0
        (EnfState.mk [((1, 2), Client.mk 4 2 2 5 0 0 9 0)] 5) 1 2 5 2 [5, 6] [1, 1]
        (Client.mk 4 2 2 5 0 0 9 0) rfl (by decide) (by decide) (by decide)).1
      (by decide)).1⟩

/-! ## Claim C8 -/

/-- Counterexample to C8 as stated: `getOccupancy` on an absent key does
NOT leave the client table unchanged — `g_clients[addr]` default-inserts an
entry (here from the empty table). -/
theorem C8_absent_occupancy_cex :
    (getOccupancy cfg7 (fun _ _ => 0) 0 (EnfState.mk [] 0) 1 2).1 ≠ EnfState.mk [] 0 := by
  decide

/-- C8 (amended): `getOccupancy` on an absent key returns 0, does not
advance the id counter, does not modify any other entry — but it does
default-insert a zero-valued entry (id 0, priority 0) for the missing key. -/
theorem C8_absent_occupancy (g : Config) (read : Nat → Nat → Nat) (now : Nat)
    (s : EnfState) (dst src : Nat)
    (h : findClient s.clients (dst, src) = none) :
    (getOccupancy g read now s dst src).2 = some 0 ∧
    (getOccupancy g read now s dst src).1.nextId = s.nextId ∧
    findClient (getOccupancy g read now s dst src).1.clients (dst, src) =
      some defaultClient ∧
    ∀ b : Nat × Nat, b ≠ (dst, src) →
      findClient (getOccupancy g read now s dst src).1.clients b =
        findClient s.clients b := by
  refine ⟨?_, ?_, ?_, ?_⟩
  · simp [getOccupancy, h, defaultClient]
  · simp [getOccupancy, h, defaultClient]
  · simp [getOccupancy, h, defaultClient, findClient_setClient_self]
  · intro b hb
    simp [getOccupancy, h, defaultClient, findClient_setClient_ne _ _ _ _ hb]

/-- Witness for C8 (amended) at a concrete input. -/
theorem C8_absent_occupancy_witness :
    findClient (EnfState.mk [] 3).clients (1, 2) = none ∧
      ((getOccupancy cfg7 (fun _ _ => 0) 0 (EnfState.mk [] 3) 1 2).2 = some 0 ∧
      (getOccupancy cfg7 (fun _ _ => 0) 0 (EnfState.mk [] 3) 1 2).1.nextId =
        (EnfState.mk [] 3).nextId ∧
      findClient (getOccupancy cfg7 (fun _ _ => 0) 0 (EnfState.mk [] 3) 1 2).1.clients (1, 2) =
        some defaultClient ∧
      ∀ b : Nat × Nat, b ≠ (1, 2) →
        findClient (getOccupancy cfg7 (fun _ _ => 0) 0 (EnfState.mk [] 3) 1 2).1.clients b =
          findClient (EnfState.mk [] 3).clients b) :=
  ⟨rfl, C8_absent_occupancy cfg7 (fun _ _ => 0) 0 (EnfState.mk [] 3) 1 2 rfl⟩

/-! ## Claim C7 -/

/-- Range predicate for an occupancy result: a real return value must lie in
`[0, 1]`; `none` stands for the IEEE `NaN` of the `0.0 / 0.0` division. -/
def occInRange : Option ℚ → Prop
  | none => True
  | some q => 0 ≤ q ∧ q ≤ 1

lemma updateSentBytes_max_nonneg (g : Config) (read : Nat → Nat → Nat) (now : Nat)
    (c : Client) (hr : 0 ≤ c.rate) (hm : 0 ≤ c.maxSentBytes) :
    0 ≤ (updateSentBytes g read now c).maxSentBytes := by
  unfold updateSentBytes
  split
  · dsimp only
    have hcv : (0 : ℚ) ≤ ConvertTimeToSeconds (sub64 now c.lastSentBytesTime) := by
      unfold ConvertTimeToSeconds
      positivity
    exact add_nonneg hm (mul_nonneg hr hcv)
  · exact hm

/-- Counterexample to C7 as stated: with zero elapsed time since the last
sample (and no traffic), `maxSentBytes` and `sentBytes` are both 0, the
division `0.0 / 0.0` produces `NaN` (modelled `none`), and the
`occupancy > 1` cap does not turn `NaN` into a value in `[0, 1]`. -/
theorem C7_occupancy_range_cex :
    (getOccupancy cfg7 (fun _ _ => 0) 100
      (EnfState.mk [((1, 2), Client.mk 0 2 2 1 100 0 0 0)] 1) 1 2).2 = none := by
  have hfind : findClient [((1, 2), Client.mk 0 2 2 1 100 0 0 0)] (1, 2) =
      some (Client.mk 0 2 2 1 100 0 0 0) := rfl
  have h1 : updateSentBytes cfg7 (fun _ _ => 0) 100 (Client.mk 0 2 2 1 100 0 0 0) =
      Client.mk 0 2 2 1 100 0 0 0 := by
    unfold updateSentBytes sub64 ConvertTimeToSeconds
    norm_num
  simp [getOccupancy, hfind, h1]

/-- C7 (amended): whenever `getOccupancy` returns a real value (it returns
`NaN` exactly when the accumulated allowance and the accumulated bytes are
both zero, e.g. after zero elapsed time), that value lies in `[0, 1]` —
provided the stored `rate` and `maxSentBytes` of the addressed client are
nonnegative, as they are for every client configured with nonnegative
rates. -/
theorem C7_occupancy_range (g : Config) (read : Nat → Nat → Nat) (now : Nat)
    (s : EnfState) (dst src : Nat)
    (hr : 0 ≤ ((findClient s.clients (dst, src)).getD defaultClient).rate)
    (hm : 0 ≤ ((findClient s.clients (dst, src)).getD defaultClient).maxSentBytes) :
    occInRange (getOccupancy g read now s dst src).2 := by
  unfold getOccupancy
  dsimp only
  have hm1 : 0 ≤ (updateSentBytes g read now
      ((findClient s.clients (dst, src)).getD defaultClient)).maxSentBytes :=
    updateSentBytes_max_nonneg g read now _ hr hm
  split_ifs with hp h0 hs0 hgt
  · exact trivial
  · exact ⟨by norm_num, le_refl 1⟩
  · exact ⟨by norm_num, le_refl 1⟩
  · refine ⟨div_nonneg (by positivity) hm1, le_of_not_lt hgt⟩
  · exact ⟨le_refl 0, by norm_num⟩

/-- Witness for C7 (amended) at a concrete input. -/
theorem C7_occupancy_range_witness :
    (0 ≤ ((findClient (EnfState.mk [((1, 2), Client.mk 0 2 2 1 0 0 0 0)] 1).clients
          (1, 2)).getD defaultClient).rate ∧
      0 ≤ ((findClient (EnfState.mk [((1, 2), Client.mk 0 2 2 1 0 0 0 0)] 1).clients
          (1, 2)).getD defaultClient).maxSentBytes) ∧
    occInRange (getOccupancy cfg7 (fun _ _ => 500000000) 1000000000
      (EnfState.mk [((1, 2), Client.mk 0 2 2 1 0 0 0 0)] 1) 1 2).2 :=
  ⟨⟨by norm_num [findClient], by norm_num [findClient]⟩,
    C7_occupancy_range cfg7 (fun _ _ => 500000000) 1000000000
      (EnfState.mk [((1, 2), Client.mk 0 2 2 1 0 0 0 0)] 1) 1 2
      (by norm_num [findClient]) (by norm_num [findClient])⟩

/-! ## Table invariants (claims C5, C6) -/

lemma updateSentBytes_len (g : Config) (read : Nat → Nat → Nat) (now : Nat) (c : Client) :
    (updateSentBytes g read now c).rateLimitLength = c.rateLimitLength := by
  unfold updateSentBytes
  split <;> rfl

lemma findClient_mem {l : List ((Nat × Nat) × Client)} {a : Nat × Nat} {c : Client}
    (h : findClient l a = some c) : (a, c) ∈ l := by
  induction l with
  | nil => simp [findClient] at h
  | cons e rest ih =>
      obtain ⟨x, c0⟩ := e
      by_cases hx : x = a
      · subst hx
        simp [findClient] at h
        simp [h]
      · simp only [findClient, hx, if_false, if_neg hx] at h
        simp [ih h]

lemma not_mem_keys_of_none {l : List ((Nat × Nat) × Client)} {a : Nat × Nat}
    (h : findClient l a = none) : a ∉ l.map Prod.fst := by
  induction l with
  | nil => simp
  | cons e rest ih =>
      obtain ⟨x, c0⟩ := e
      by_cases hx : x = a
      · simp [findClient, hx] at h
      · simp only [findClient, hx, if_false, if_neg hx] at h
        have hax : a ≠ x := fun hax => hx hax.symm
        simp [ih h, hax]

/-- Membership decomposition for the table after `updateClient`: every
entry either was already present or is the freshly stored client. -/
lemma updateClient_mem {g : Config} {read : Nat → Nat → Nat} {now : Nat}
    {s : EnfState} {dst src priority n : Nat} {rates bursts : List ℚ}
    {e : (Nat × Nat) × Client}
    (h : e ∈ (updateClient g read now s dst src priority n rates bursts).1.clients) :
    e ∈ s.clients ∨
      e = ((dst, src), clientAfter g read now s (dst, src) priority n rates) := by
  by_cases hgate : findClient s.clients (dst, src) = none ∧ priority = g.numPriorities
  · left
    simp only [updateClient] at h
    rw [if_pos hgate] at h
    exact h
  · rw [updateClient_spec g read now s dst src priority n rates bursts hgate] at h
    dsimp only at h
    by_cases hp : priority = g.numPriorities
    · rw [if_pos hp] at h
      rcases mem_setClient (mem_eraseClient h) with h2 | h2
      · exact Or.inl h2
      · exact Or.inr h2
    · rw [if_neg hp] at h
      rcases mem_setClient h with h2 | h2
      · exact Or.inl h2
      · exact Or.inr h2

/-- Membership decomposition for the table after `getOccupancy`: every entry
either was already present or carries the (possibly default-inserted)
addressed client's `rateLimitLength` and `id`. -/
lemma getOccupancy_mem {g : Config} {read : Nat → Nat → Nat} {now : Nat}
    {s : EnfState} {dst src : Nat} {e : (Nat × Nat) × Client}
    (h : e ∈ (getOccupancy g read now s dst src).1.clients) :
    e ∈ s.clients ∨
      (e.1 = (dst, src) ∧
        e.2.rateLimitLength =
          ((findClient s.clients (dst, src)).getD defaultClient).rateLimitLength ∧
        e.2.id = ((findClient s.clients (dst, src)).getD defaultClient).id) := by
  unfold getOccupancy at h
  dsimp only at h
  split at h
  · rcases mem_setClient h with h2 | h2
    · exact Or.inl h2
    · refine Or.inr ?_
      rw [h2]
      exact ⟨rfl, updateSentBytes_len g read now _, updateSentBytes_id g read now _⟩
  · rcases mem_setClient h with h2 | h2
    · exact Or.inl h2
    · refine Or.inr ?_
      rw [h2]
      exact ⟨rfl, rfl, rfl⟩

/-! ## Claim C6 -/

/-- Every stored `rateLimitLength` is at most `(g_numLevels + 1) * 2`. -/
def LenOk (g : Config) (s : EnfState) : Prop :=
  ∀ e ∈ s.clients, e.2.rateLimitLength ≤ (g.numLevels + 1) * 2

/-- Every stored `rateLimitLength` is even. -/
def EvenLenOk (s : EnfState) : Prop :=
  ∀ e ∈ s.clients, e.2.rateLimitLength % 2 = 0

/-- Whether an operation's rate-limit list has even length (`true` for
non-update operations). -/
def evenOpB : Op → Bool
  | Op.update _ _ _ rates _ _ _ => rates.length % 2 == 0
  | _ => true

lemma step_LenOk (g : Config) (s : EnfState) (op : Op) (h : LenOk g s) :
    LenOk g (step g s op) := by
  cases op with
  | update dst src priority rates bursts read now =>
      by_cases hv1 : g.numPriorities ≤ priority
      · simpa [step, hv1] using h
      · by_cases hv2 : (g.numLevels + 1) * 2 < rates.length
        · simpa [step, hv1, hv2] using h
        · intro e he
          simp only [step, if_neg (by omega : ¬ g.numPriorities ≤ priority),
            if_neg hv2] at he
          rcases updateClient_mem he with h2 | h2
          · exact h e h2
          · rw [h2]
            dsimp only
            rw [clientAfter_len]
            omega
  | remove dst src read now =>
      intro e he
      simp only [step] at he
      rcases updateClient_mem he with h2 | h2
      · exact h e h2
      · rw [h2]
        dsimp only
        rw [clientAfter_len]
        omega
  | occupancy dst src read now =>
      intro e he
      simp only [step] at he
      rcases getOccupancy_mem he with h2 | h2
      · exact h e h2
      · rcases hf : findClient s.clients (dst, src) with _ | c
        · rw [hf] at h2
          simp only [Option.getD_none] at h2
          rw [h2.2.1]
          simp [defaultClient]
        · rw [hf] at h2
          simp only [Option.getD_some] at h2
          rw [h2.2.1]
          exact h ((dst, src), c) (findClient_mem hf)

lemma step_EvenLenOk (g : Config) (s : EnfState) (op : Op) (h : EvenLenOk s)
    (hop : evenOpB op = true) : EvenLenOk (step g s op) := by
  cases op with
  | update dst src priority rates bursts read now =>
      have heven : rates.length % 2 = 0 := by
        simpa [evenOpB] using hop
      by_cases hv1 : g.numPriorities ≤ priority
      · simpa [step, hv1] using h
      · by_cases hv2 : (g.numLevels + 1) * 2 < rates.length
        · simpa [step, hv1, hv2] using h
        · intro e he
          simp only [step, if_neg (by omega : ¬ g.numPriorities ≤ priority),
            if_neg hv2] at he
          rcases updateClient_mem he with h2 | h2
          · exact h e h2
          · rw [h2]
            dsimp only
            rw [clientAfter_len]
            exact heven
  | remove dst src read now =>
      intro e he
      simp only [step] at he
      rcases updateClient_mem he with h2 | h2
      · exact h e h2
      · rw [h2]
        dsimp only
        rw [clientAfter_len]
  | occupancy dst src read now =>
      intro e he
      simp only [step] at he
      rcases getOccupancy_mem he with h2 | h2
      · exact h e h2
      · rcases hf : findClient s.clients (dst, src) with _ | c
        · rw [hf] at h2
          simp only [Option.getD_none] at h2
          rw [h2.2.1]
          simp [defaultClient]
        · rw [hf] at h2
          simp only [Option.getD_some] at h2
          rw [h2.2.1]
          exact h ((dst, src), c) (findClient_mem hf)

/-- Counterexample to C6 as stated: the `UpdateClients` handler accepts an
odd-length rate list (here length 1), so the stored `rateLimitLength` of a
reachable client is odd. -/
theorem C6_even_length_cex :
    (findClient (run cfg7 (EnfState.mk [] 0)
        [Op.update 1 1 0 [5] [3] (fun _ _ => 0) 0]).clients (1, 1)).map
      (fun c => c.rateLimitLength) = some 1 ∧ ¬ (1 % 2 = 0) := by
  constructor
  · decide
  · decide

lemma run_LenOk (g : Config) : ∀ (ops : List Op) (s : EnfState),
    LenOk g s → LenOk g (run g s ops) := by
  intro ops
  induction ops with
  | nil =>
      intro s h
      exact h
  | cons op ops ih =>
      intro s h
      exact ih (step g s op) (step_LenOk g s op h)

lemma run_EvenLenOk (g : Config) : ∀ (ops : List Op) (s : EnfState),
    EvenLenOk s → (∀ op ∈ ops, evenOpB op = true) → EvenLenOk (run g s ops) := by
  intro ops
  induction ops with
  | nil =>
      intro s h _
      exact h
  | cons op ops ih =>
      intro s h hops
      exact ih (step g s op) (step_EvenLenOk g s op h (hops op (by simp)))
        (fun op2 h2 => hops op2 (by simp [h2]))

/-- C6 (amended): the `UpdateClients` handler skips items with
`priority ≥ g_numPriorities` or a rate list longer than
`(g_numLevels + 1) * 2`, so every reachable stored `rateLimitLength` is at
most `(g_numLevels + 1) * 2` — for every run, odd-length updates included;
evenness, however, is NOT checked by the handler: it holds only for runs
whose initial table is even and whose updates all carry even-length rate
lists. -/
theorem C6_length_invariant (g : Config) (s : EnfState) (ops : List Op)
    (hlen : LenOk g s) :
    LenOk g (run g s ops) ∧
    (EvenLenOk s → (∀ op ∈ ops, evenOpB op = true) → EvenLenOk (run g s ops)) ∧
    (∀ dst src priority rates bursts (read : Nat → Nat → Nat) (now : Nat),
      g.numPriorities ≤ priority ∨ (g.numLevels + 1) * 2 < rates.length →
      step g s (Op.update dst src priority rates bursts read now) = s) := by
  refine ⟨run_LenOk g ops s hlen, fun heven hops => run_EvenLenOk g ops s heven hops, ?_⟩
  intro dst src priority rates bursts read now hbad
  rcases hbad with hbad | hbad
  · simp [step, hbad]
  · by_cases hv1 : g.numPriorities ≤ priority
    · simp [step, hv1]
    · simp [step, hv1, hbad]

/-- Witness for C6 (amended) at a concrete input (one valid even update, one
skipped invalid update). -/
theorem C6_length_invariant_witness :
    LenOk cfg7 (EnfState.mk [] 0) ∧
    (LenOk cfg7 (run cfg7 (EnfState.mk [] 0)
        [Op.update 1 1 0 [5, 6] [3, 4] (fun _ _ => 0) 0]) ∧
      (EvenLenOk (EnfState.mk [] 0) →
        (∀ op ∈ [Op.update 1 1 0 [5, 6] [3, 4] (fun _ _ => 0) 0], evenOpB op = true) →
        EvenLenOk (run cfg7 (EnfState.mk [] 0)
          [Op.update 1 1 0 [5, 6] [3, 4] (fun _ _ => 0) 0])) ∧
      step cfg7 (EnfState.mk [] 0) (Op.update 3 4 9 [5, 6] [3, 4] (fun _ _ => 0) 0) =
        EnfState.mk [] 0) :=
  ⟨fun e he => by simp at he,
    (C6_length_invariant cfg7 (EnfState.mk [] 0)
        [Op.update 1 1 0 [5, 6] [3, 4] (fun _ _ => 0) 0]
        (fun e he => by simp at he)).1,
    (C6_length_invariant cfg7 (EnfState.mk [] 0)
        [Op.update 1 1 0 [5, 6] [3, 4] (fun _ _ => 0) 0]
        (fun e he => by simp at he)).2.1,
    (C6_length_invariant cfg7 (EnfState.mk [] 0)
        [Op.update 1 1 0 [5, 6] [3, 4] (fun _ _ => 0) 0]
        (fun e he => by simp at he)).2.2 3 4 9 [5, 6] [3, 4] (fun _ _ => 0) 0
        (Or.inl (by decide))⟩

/-! ## Claim C5 -/

/-- Table sanity: keys are distinct, the ids of distinct entries are
distinct, and every id is below the id counter. -/
def TableOk (s : EnfState) : Prop :=
  (s.clients.map Prod.fst).Nodup ∧
  (s.clients.map (fun e => e.2.id)).Nodup ∧
  ∀ e ∈ s.clients, e.2.id < s.nextId

lemma setClient_TableOk (s : EnfState) (addr : Nat × Nat) (X c0 : Client)
    (hfound : findClient s.clients addr = some c0) (hX : X.id = c0.id)
    (h : TableOk s) : TableOk (EnfState.mk (setClient s.clients addr X) s.nextId) := by
  obtain ⟨hkeys, hids, hbound⟩ := h
  refine ⟨?_, ?_, ?_⟩
  · rw [map_setClient_present X hfound Prod.fst rfl]
    exact hkeys
  · rw [map_setClient_present X hfound (fun e => e.2.id) hX]
    exact hids
  · intro e he
    rcases mem_setClient he with h3 | h3
    · exact hbound e h3
    · rw [h3]
      dsimp only
      rw [hX]
      exact hbound (addr, c0) (findClient_mem hfound)

lemma eraseClient_TableOk (l : List ((Nat × Nat) × Client)) (nid : Nat) (addr : Nat × Nat)
    (h : TableOk (EnfState.mk l nid)) :
    TableOk (EnfState.mk (eraseClient l addr) nid) := by
  obtain ⟨hkeys, hids, hbound⟩ := h
  refine ⟨?_, ?_, ?_⟩
  · exact List.Nodup.sublist ((List.filter_sublist l).map Prod.fst) hkeys
  · exact List.Nodup.sublist ((List.filter_sublist l).map (fun e => e.2.id)) hids
  · intro e he
    exact hbound e (mem_eraseClient he)

lemma insert_TableOk (s : EnfState) (addr : Nat × Nat) (X : Client)
    (hfound : findClient s.clients addr = none) (hX : X.id = s.nextId)
    (h : TableOk s) :
    TableOk (EnfState.mk (s.clients ++ [(addr, X)]) (s.nextId + 1)) := by
  obtain ⟨hkeys, hids, hbound⟩ := h
  refine ⟨?_, ?_, ?_⟩
  · rw [List.map_append, List.nodup_append]
    refine ⟨hkeys, by simp, ?_⟩
    intro a ha hb
    simp only [List.map_cons, List.map_nil, List.mem_singleton] at hb
    subst hb
    exact not_mem_keys_of_none hfound ha
  · rw [List.map_append, List.nodup_append]
    refine ⟨hids, by simp, ?_⟩
    intro i hi hb
    simp only [List.map_cons, List.map_nil, List.mem_singleton] at hb
    subst hb
    obtain ⟨e, he, hei⟩ := List.mem_map.mp hi
    have := hbound e he
    rw [hei, hX] at this
    exact lt_irrefl _ this
  · intro e he
    show e.2.id < s.nextId + 1
    rcases List.mem_append.mp he with h2 | h2
    · have := hbound e h2
      omega
    · simp only [List.mem_singleton] at h2
      subst h2
      show X.id < s.nextId + 1
      rw [hX]
      exact Nat.lt_succ_self _

lemma updateClient_TableOk (g : Config) (read : Nat → Nat → Nat) (now : Nat)
    (s : EnfState) (dst src priority n : Nat) (rates bursts : List ℚ)
    (h : TableOk s) (hroom : s.nextId + 1 < 2 ^ 32) :
    TableOk (updateClient g read now s dst src priority n rates bursts).1 ∧
      s.nextId ≤ (updateClient g read now s dst src priority n rates bursts).1.nextId ∧
      (updateClient g read now s dst src priority n rates bursts).1.nextId ≤ s.nextId + 1 := by
  by_cases hgate : findClient s.clients (dst, src) = none ∧ priority = g.numPriorities
  · simp only [updateClient]
    rw [if_pos hgate]
    exact ⟨h, le_refl _, Nat.le_succ _⟩
  · rw [updateClient_spec g read now s dst src priority n rates bursts hgate]
    dsimp only
    rcases hfound : findClient s.clients (dst, src) with _ | c0
    · have hp : priority ≠ g.numPriorities := fun hp => hgate ⟨hfound, hp⟩
      have hid : (clientAfter g read now s (dst, src) priority n rates).id = s.nextId := by
        rw [clientAfter_id]
        simp [effectiveId, hfound]
      rw [if_neg hp, setClient_absent _ _ _ hfound]
      simp only [hfound]
      rw [Nat.mod_eq_of_lt hroom]
      exact ⟨insert_TableOk s (dst, src) _ hfound hid h, by omega, by omega⟩
    · have hid : (clientAfter g read now s (dst, src) priority n rates).id = c0.id := by
        rw [clientAfter_id]
        simp [effectiveId, hfound]
      simp only [hfound]
      have hset := setClient_TableOk s (dst, src) _ c0 hfound hid h
      by_cases hp : priority = g.numPriorities
      · rw [if_pos hp]
        exact ⟨eraseClient_TableOk _ _ _ hset, le_refl _, by omega⟩
      · rw [if_neg hp]
        exact ⟨hset, le_refl _, by omega⟩

lemma getOccupancy_TableOk (g : Config) (read : Nat → Nat → Nat) (now : Nat)
    (s : EnfState) (dst src : Nat) (c0 : Client)
    (hfound : findClient s.clients (dst, src) = some c0)
    (h : TableOk s) :
    TableOk (getOccupancy g read now s dst src).1 ∧
      (getOccupancy g read now s dst src).1.nextId = s.nextId := by
  unfold getOccupancy
  dsimp only
  simp only [hfound, Option.getD_some]
  split
  · refine ⟨setClient_TableOk s (dst, src) _ c0 hfound ?_ h, rfl⟩
    exact updateSentBytes_id g read now c0
  · exact ⟨setClient_TableOk s (dst, src) c0 c0 hfound rfl h, rfl⟩

lemma step_TableOk (g : Config) (s : EnfState) (op : Op) (h : TableOk s)
    (hroom : s.nextId + 1 < 2 ^ 32)
    (hop : ∀ dst src (read : Nat → Nat → Nat) (now : Nat),
      op = Op.occupancy dst src read now → findClient s.clients (dst, src) ≠ none) :
    TableOk (step g s op) ∧ s.nextId ≤ (step g s op).nextId ∧
      (step g s op).nextId ≤ s.nextId + 1 := by
  cases op with
  | update dst src priority rates bursts read now =>
      by_cases hv1 : g.numPriorities ≤ priority
      · simp only [step, if_pos hv1]
        exact ⟨h, le_refl _, by omega⟩
      · by_cases hv2 : (g.numLevels + 1) * 2 < rates.length
        · simp only [step, if_neg hv1, if_pos hv2]
          exact ⟨h, le_refl _, by omega⟩
        · simp only [step, if_neg hv1, if_neg hv2]
          exact updateClient_TableOk g read now s dst src priority rates.length rates bursts
            h hroom
  | remove dst src read now =>
      simp only [step]
      exact updateClient_TableOk g read now s dst src g.numPriorities 0 [] [] h hroom
  | occupancy dst src read now =>
      have hne := hop dst src read now rfl
      rcases hc0 : findClient s.clients (dst, src) with _ | c0
      · exact absurd hc0 hne
      · simp only [step]
        obtain ⟨ht, hn⟩ := getOccupancy_TableOk g read now s dst src c0 hc0 h
        exact ⟨ht, by omega, by omega⟩

/-- Decides, along a run, that every `GetOccupancy` request addresses a key
present in the table at that moment. -/
def occPresentB (g : Config) : EnfState → List Op → Bool
  | _, [] => true
  | s, op :: ops =>
    (match op with
     | Op.occupancy dst src _ _ => !((findClient s.clients (dst, src)).isNone)
     | _ => true) && occPresentB g (step g s op) ops

lemma run_TableOk (g : Config) : ∀ (ops : List Op) (s : EnfState), TableOk s →
    occPresentB g s ops = true → s.nextId + ops.length < 2 ^ 32 →
    TableOk (run g s ops) ∧ s.nextId ≤ (run g s ops).nextId ∧
      (run g s ops).nextId ≤ s.nextId + ops.length := by
  intro ops
  induction ops with
  | nil =>
      intro s h _ _
      exact ⟨h, le_refl _, Nat.le_add_right _ _⟩
  | cons op ops ih =>
      intro s h hocc hroom
      simp only [occPresentB, Bool.and_eq_true] at hocc
      simp only [List.length_cons] at hroom
      have hop : ∀ dst src (read : Nat → Nat → Nat) (now : Nat),
          op = Op.occupancy dst src read now → findClient s.clients (dst, src) ≠ none := by
        intro dst src read now heq hnone
        subst heq
        have h1 := hocc.1
        simp [hnone] at h1
      obtain ⟨h1, h2, h2b⟩ := step_TableOk g s op h (by omega) hop
      obtain ⟨h3, h4, h5⟩ := ih (step g s op) h1 hocc.2 (by omega)
      refine ⟨h3, le_trans h2 h4, ?_⟩
      show (run g (step g s op) ops).nextId ≤ s.nextId + (op :: ops).length
      simp only [List.length_cons]
      omega

/-- Counterexample to C5 as stated: after one real insertion (id 0),
`getOccupancy` on an unknown `(dst, src)` default-inserts a second entry
whose id is also 0 — two distinct entries of the table share an id. -/
theorem C5_unique_ids_cex :
    (findClient (run cfg7 (EnfState.mk [] 0)
        [Op.update 1 1 0 [] [] (fun _ _ => 0) 0,
         Op.occupancy 2 2 (fun _ _ => 0) 0]).clients (1, 1)).map (fun c => c.id) =
      some 0 ∧
    (findClient (run cfg7 (EnfState.mk [] 0)
        [Op.update 1 1 0 [] [] (fun _ _ => 0) 0,
         Op.occupancy 2 2 (fun _ _ => 0) 0]).clients (2, 2)).map (fun c => c.id) =
      some 0 ∧
    ((1, 1) : Nat × Nat) ≠ (2, 2) := by
  refine ⟨by decide, by decide, by decide⟩

/-- C5 (amended): across every sequence of RPC operations in which
`GetOccupancy` is only invoked on keys present in the table (the source's
`g_clients[addr]` default-inserts an id-0 entry for unknown keys, which can
duplicate a real client's id) and in which the 32-bit id counter cannot
wrap (fewer than `2^32` ids are ever allocated; the source's `g_nextId++`
wraps and then reassigns live ids), ids are never reused: the table always
has pairwise-distinct ids all below the monotonically non-decreasing id
counter, and a valid update on a fresh key allocates exactly id `nextId`
and advances the counter by one. -/
theorem C5_unique_ids (g : Config) (s : EnfState) (ops : List Op)
    (h : TableOk s) (hocc : occPresentB g s ops = true)
    (hroom : s.nextId + ops.length < 2 ^ 32) :
    (TableOk (run g s ops) ∧ s.nextId ≤ (run g s ops).nextId) ∧
    (∀ dst src priority (rates bursts : List ℚ) (read : Nat → Nat → Nat) (now : Nat),
      priority < g.numPriorities → rates.length ≤ (g.numLevels + 1) * 2 →
      findClient s.clients (dst, src) = none → s.nextId + 1 < 2 ^ 32 →
      (step g s (Op.update dst src priority rates bursts read now)).nextId = s.nextId + 1 ∧
      (findClient (step g s (Op.update dst src priority rates bursts read now)).clients
        (dst, src)).map (fun c => c.id) = some s.nextId) := by
  constructor
  · obtain ⟨h1, h2, _⟩ := run_TableOk g ops s h hocc hroom
    exact ⟨h1, h2⟩
  · intro dst src priority rates bursts read now hpri hlen hfound hroom1
    have hgate : ¬ (findClient s.clients (dst, src) = none ∧ priority = g.numPriorities) :=
      fun hg => absurd hg.2 (Nat.ne_of_lt hpri)
    simp only [step, if_neg (by omega : ¬ g.numPriorities ≤ priority),
      if_neg (by omega : ¬ (g.numLevels + 1) * 2 < rates.length)]
    rw [updateClient_spec g read now s dst src priority rates.length rates bursts hgate]
    dsimp only
    simp only [hfound]
    refine ⟨Nat.mod_eq_of_lt hroom1, ?_⟩
    rw [if_neg (Nat.ne_of_lt hpri)]
    simp [findClient_setClient_self, clientAfter_id, effectiveId, hfound]

/-- Witness for C5 (amended) at a concrete input: insert, remove, re-insert
and query, with occupancy only on present keys. -/
theorem C5_unique_ids_witness :
    (TableOk (EnfState.mk [] 0) ∧
      occPresentB cfg7 (EnfState.mk [] 0)
        [Op.update 1 1 0 [] [] (fun _ _ => 0) 0,
         Op.remove 1 1 (fun _ _ => 0) 0,
         Op.update 2 2 1 [] [] (fun _ _ => 0) 0,
         Op.occupancy 2 2 (fun _ _ => 0) 0] = true ∧
      (EnfState.mk [] 0).nextId +
        ([Op.update 1 1 0 [] [] (fun _ _ => 0) 0,
          Op.remove 1 1 (fun _ _ => 0) 0,
          Op.update 2 2 1 [] [] (fun _ _ => 0) 0,
          Op.occupancy 2 2 (fun _ _ => 0) 0] : List Op).length < 2 ^ 32) ∧
    (TableOk (run cfg7 (EnfState.mk [] 0)
        [Op.update 1 1 0 [] [] (fun _ _ => 0) 0,
         Op.remove 1 1 (fun _ _ => 0) 0,
         Op.update 2 2 1 [] [] (fun _ _ => 0) 0,
         Op.occupancy 2 2 (fun _ _ => 0) 0]) ∧
      (EnfState.mk [] 0).nextId ≤ (run cfg7 (EnfState.mk [] 0)
        [Op.update 1 1 0 [] [] (fun _ _ => 0) 0,
         Op.remove 1 1 (fun _ _ => 0) 0,
         Op.update 2 2 1 [] [] (fun _ _ => 0) 0,
         Op.occupancy 2 2 (fun _ _ => 0) 0]).nextId) :=
  ⟨⟨⟨by simp, by simp, by simp⟩, by decide, by decide⟩,
    (C5_unique_ids cfg7 (EnfState.mk [] 0)
        [Op.update 1 1 0 [] [] (fun _ _ => 0) 0,
         Op.remove 1 1 (fun _ _ => 0) 0,
         Op.update 2 2 1 [] [] (fun _ _ => 0) 0,
         Op.occupancy 2 2 (fun _ _ => 0) 0]
      ⟨by simp, by simp, by simp⟩ (by decide) (by decide)).1⟩

/-! ## Claim C10 -/

lemma euclid_unique {m a1 b1 a2 b2 : Nat} (hm : 0 < m) (h1 : b1 < m) (h2 : b2 < m)
    (h : a1 * m + b1 = a2 * m + b2) : a1 = a2 ∧ b1 = b2 := by
  have e1 : (a1 * m + b1) / m = a1 := by
    rw [Nat.mul_comm, Nat.mul_add_div hm, Nat.div_eq_of_lt h1, Nat.add_zero]
  have e2 : (a2 * m + b2) / m = a2 := by
    rw [Nat.mul_comm, Nat.mul_add_div hm, Nat.div_eq_of_lt h2, Nat.add_zero]
  have ea : a1 = a2 := by rw [← e1, ← e2, h]
  refine ⟨ea, ?_⟩
  subst ea
  omega

lemma HTBHandle_eq (g : Config) (hsmall : 4 * g.numPriorities + 2 < 2 ^ 32)
    {i p l : Nat}
    (hov : i * g.numPriorities * g.numLevels + p * g.numLevels + l
      + 4 * g.numPriorities + 2 < 2 ^ 32) :
    HTBHandle g i p l = i * g.numPriorities * g.numLevels + p * g.numLevels + l
      + 4 * g.numPriorities + 2 := by
  unfold HTBHandle
  rw [HTBBaseHandle_eq g hsmall (Nat.le_refl g.numPriorities)]
  have hb : i * g.numPriorities * g.numLevels + p * g.numLevels + l
      + (g.numPriorities + 3 * g.numPriorities + 2) < 2 ^ 32 := by omega
  rw [Nat.mod_eq_of_lt hb]
  omega

/-- Counterexample to C10 as stated: with the default configuration the
32-bit handle arithmetic wraps, so `HTBHandle` is NOT injective for
unbounded ids — id 2331553675 at (priority 0, level 0) collides with id 0
at (priority 0, level 1). -/
theorem C10_handle_disjoint_cex :
    HTBHandle cfg7 2331553675 0 0 = HTBHandle cfg7 0 0 1 ∧
      ¬ (2331553675 = 0 ∧ (0 : Nat) = 0 ∧ (0 : Nat) = 1) ∧
      (0 : Nat) < cfg7.numPriorities ∧ (0 : Nat) < cfg7.numLevels ∧
      (1 : Nat) < cfg7.numLevels := by
  refine ⟨by decide, by decide, by decide, by decide, by decide⟩

/-- C10 (amended): provided the handle computations do not overflow 32-bit
unsigned arithmetic (every `id·P·L + pri·L + level + 4P + 2 < 2^32` and
`id + 2 < 2^32`), the allocator families `rootHTBMinor`,
`rootHTBMinorHelper`, `rootHTBMinorDefault`, `DSMARKHandle`,
`HTBBaseHandle`, `HTBHandle` are pairwise disjoint over priorities `< P`
and levels `< L`, `HTBHandle` is injective in `(id, priority, level)`, and
`HTBMinor(id, 0) = id + 2` is injective and never the reserved minor 1. -/
theorem C10_handle_disjoint (g : Config) (hP : 0 < g.numPriorities)
    (hsmall : 4 * g.numPriorities + 2 < 2 ^ 32) :
    (∀ p q, p < g.numPriorities → q < g.numPriorities →
      rootHTBMinor p ≠ rootHTBMinorHelper g q ∧
      rootHTBMinor p ≠ rootHTBMinorDefault g ∧
      rootHTBMinor p ≠ DSMARKHandle g q ∧
      rootHTBMinor p ≠ HTBBaseHandle g q ∧
      rootHTBMinorHelper g p ≠ rootHTBMinorDefault g ∧
      rootHTBMinorHelper g p ≠ DSMARKHandle g q ∧
      rootHTBMinorHelper g p ≠ HTBBaseHandle g q ∧
      rootHTBMinorDefault g ≠ DSMARKHandle g q ∧
      rootHTBMinorDefault g ≠ HTBBaseHandle g q ∧
      DSMARKHandle g p ≠ HTBBaseHandle g q) ∧
    (∀ i p l q, p < g.numPriorities → l < g.numLevels → q < g.numPriorities →
      i * g.numPriorities * g.numLevels + p * g.numLevels + l
        + 4 * g.numPriorities + 2 < 2 ^ 32 →
      HTBHandle g i p l ≠ rootHTBMinor q ∧
      HTBHandle g i p l ≠ rootHTBMinorHelper g q ∧
      HTBHandle g i p l ≠ rootHTBMinorDefault g ∧
      HTBHandle g i p l ≠ DSMARKHandle g q ∧
      HTBHandle g i p l ≠ HTBBaseHandle g q) ∧
    (∀ i1 p1 l1 i2 p2 l2,
      p1 < g.numPriorities → l1 < g.numLevels →
      p2 < g.numPriorities → l2 < g.numLevels →
      i1 * g.numPriorities * g.numLevels + p1 * g.numLevels + l1
        + 4 * g.numPriorities + 2 < 2 ^ 32 →
      i2 * g.numPriorities * g.numLevels + p2 * g.numLevels + l2
        + 4 * g.numPriorities + 2 < 2 ^ 32 →
      HTBHandle g i1 p1 l1 = HTBHandle g i2 p2 l2 →
      i1 = i2 ∧ p1 = p2 ∧ l1 = l2) ∧
    (∀ i1 i2, i1 + 2 < 2 ^ 32 → i2 + 2 < 2 ^ 32 →
      (i1 ≠ i2 → HTBMinor i1 0 ≠ HTBMinor i2 0) ∧ HTBMinor i1 0 ≠ 1) := by
  have hmin : ∀ p, p ≤ g.numPriorities → rootHTBMinor p = p + 1 := by
    intro p hp
    exact rootHTBMinor_eq (by omega)
  have hhelp : ∀ p, p ≤ g.numPriorities → rootHTBMinorHelper g p = p + g.numPriorities + 1 :=
    fun p hp => rootHTBMinorHelper_eq g hsmall hp
  have hdef : rootHTBMinorDefault g = 2 * g.numPriorities + 1 :=
    rootHTBMinorDefault_eq g hsmall
  have hds : ∀ p, p ≤ g.numPriorities → DSMARKHandle g p = p + 2 * g.numPriorities + 2 :=
    fun p hp => DSMARKHandle_eq g hsmall hp
  have hbase : ∀ p, p ≤ g.numPriorities → HTBBaseHandle g p = p + 3 * g.numPriorities + 2 :=
    fun p hp => HTBBaseHandle_eq g hsmall hp
  refine ⟨?_, ?_, ?_, ?_⟩
  · intro p q hp hq
    refine ⟨?_, ?_, ?_, ?_, ?_, ?_, ?_, ?_, ?_, ?_⟩
    · rw [hmin p (by omega), hhelp q (by omega)]; omega
    · rw [hmin p (by omega), hdef]; omega
    · rw [hmin p (by omega), hds q (by omega)]; omega
    · rw [hmin p (by omega), hbase q (by omega)]; omega
    · rw [hhelp p (by omega), hdef]; omega
    · rw [hhelp p (by omega), hds q (by omega)]; omega
    · rw [hhelp p (by omega), hbase q (by omega)]; omega
    · rw [hdef, hds q (by omega)]; omega
    · rw [hdef, hbase q (by omega)]; omega
    · rw [hds p (by omega), hbase q (by omega)]; omega
  · intro i p l q hp hl hq hov
    have hh := HTBHandle_eq g hsmall hov
    refine ⟨?_, ?_, ?_, ?_, ?_⟩
    · rw [hh, hmin q (by omega)]; omega
    · rw [hh, hhelp q (by omega)]; omega
    · rw [hh, hdef]; omega
    · rw [hh, hds q (by omega)]; omega
    · rw [hh, hbase q (by omega)]; omega
  · intro i1 p1 l1 i2 p2 l2 hp1 hl1 hp2 hl2 hov1 hov2 heq
    have hL : 0 < g.numLevels := by omega
    rw [HTBHandle_eq g hsmall hov1, HTBHandle_eq g hsmall hov2] at heq
    have h' : i1 * g.numPriorities * g.numLevels + p1 * g.numLevels + l1 =
        i2 * g.numPriorities * g.numLevels + p2 * g.numLevels + l2 := by omega
    rw [← Nat.add_mul, ← Nat.add_mul] at h'
    obtain ⟨hip, hl⟩ := euclid_unique hL hl1 hl2 h'
    obtain ⟨hi, hp2'⟩ := euclid_unique hP hp1 hp2 hip
    exact ⟨hi, hp2', hl⟩
  · intro i1 i2 h1 h2
    have e1 : HTBMinor i1 0 = i1 + 2 := by
      unfold HTBMinor
      rw [if_pos rfl]
      exact Nat.mod_eq_of_lt h1
    have e2 : HTBMinor i2 0 = i2 + 2 := by
      unfold HTBMinor
      rw [if_pos rfl]
      exact Nat.mod_eq_of_lt h2
    rw [e1, e2]
    exact ⟨fun hne => by omega, by omega⟩

/-- Witness for C10 (amended) at concrete inputs under the default
configuration. -/
theorem C10_handle_disjoint_witness :
    (0 < cfg7.numPriorities ∧ 4 * cfg7.numPriorities + 2 < 2 ^ 32 ∧
      3 < cfg7.numPriorities ∧ 5 < cfg7.numPriorities ∧
      5 + 2 < 2 ^ 32 ∧ 6 + 2 < 2 ^ 32 ∧ (5 : Nat) ≠ 6) ∧
    rootHTBMinor 3 ≠ HTBBaseHandle cfg7 5 ∧
    HTBMinor 5 0 ≠ HTBMinor 6 0 ∧ HTBMinor 5 0 ≠ 1 :=
  ⟨⟨by decide, by decide, by decide, by decide, by decide, by decide, by decide⟩,
    ((C10_handle_disjoint cfg7 (by decide) (by decide)).1 3 5 (by decide)
      (by decide)).2.2.2.1,
    ((C10_handle_disjoint cfg7 (by decide) (by decide)).2.2.2 5 6 (by decide)
      (by decide)).1 (by decide),
    ((C10_handle_disjoint cfg7 (by decide) (by decide)).2.2.2 5 6 (by decide)
      (by decide)).2⟩
